/-
Verification of the warehouse-synchronization cron job of
`my-learning-analytics` (`dashboard/cron_udp.py`).

The Python source is shallowly embedded in Lean:

* pandas `DataFrame`s become Lean lists of row records (one record type per
  logical row shape; dropping a column moves rows to a narrower record type);
  a `NaN`/`NULL` cell is `Option.none`;
* database/BigQuery reads are inputs (values or functions supplied in a
  `CronInputs` record); fallible external writes are oracle functions
  returning `Except String Unit`, matching the Python calls that may raise;
* side effects on the operational store are recorded as an explicit trace of
  `WriteOp` values in the order the source performs them, and a raised Python
  exception is `Except.error`; a stage therefore returns
  `List WriteOp × Except String α` — the operations that happened before the
  outcome, plus the outcome (a raise does not undo earlier writes);
* timestamps are modelled as integers (`Timestamp := Int`); only presence,
  equality and ordering of timestamps matter to the verified claims.

Python helpers that live outside the embedded files
(`Course.objects.get_supported_courses`, `get_data_earliest_date`,
`db_util.incremented_id_to_canvas_id`) are modelled from the specification;
each such definition carries a doc comment saying so.
-/
import Mathlib

set_option maxHeartbeats 1000000
set_option maxRecDepth 4000

namespace CronUdp

/-- Timestamps: only presence/equality/order matter to the claims. -/
abbrev Timestamp := Int

/-- One cell of a generic dataframe (used by `util_function`, whose queries
differ per table; row contents are opaque data to the sync logic). -/
inductive Cell where
  | str (s : String)
  | int (n : Int)
  | bool (b : Bool)
  | null
deriving DecidableEq, Repr

/-- A generic dataframe: a list of rows of cells.  Column labels are not part
of the row data; the one place the source relabels columns
(`df.columns = ['consider_weight', 'course_id']`, line 52) does not change
any row, so labels are omitted from the model. -/
abbrev Df := List (List Cell)

/-- `split_list` (cron_udp.py lines 41-42):
`[a_list[i:i + size] for i in range(0, len(a_list), size)]`.
Successive slices of length `size` are successive `take`s after `drop`s, so
the comprehension is the following recursion; the `size = 0` guard is needed
for termination (Python's `range` raises `ValueError` on step 0, and every
caller passes the positive `CRON_BQ_IN_LIMIT`). -/
def split_list (a_list : List α) (size : Nat) : List (List α) :=
  match a_list, size with
  | [], _ => []
  | _, 0 => []
  | x :: xs, s + 1 =>
    (x :: xs).take (s + 1) :: split_list ((x :: xs).drop (s + 1)) (s + 1)
termination_by a_list.length
decreasing_by
  simp only [List.length_drop, List.length_cons]
  omega

/-- `drop_duplicates` with an accumulator of already-seen dedupe keys.
Models pandas `DataFrame.drop_duplicates(keep='first')`: a row is kept iff
its key has not occurred in an earlier row. -/
def drop_duplicates_go [DecidableEq κ] (key : α → κ) (seen : List κ) :
    List α → List α
  | [] => []
  | r :: rest =>
    if key r ∈ seen then drop_duplicates_go key seen rest
    else r :: drop_duplicates_go key (key r :: seen) rest

/-- pandas `drop_duplicates(keep='first')` over the given dedupe key.
Instantiated with `key := id` for the whole-row dedupe in `util_function`
(line 55) and with `key := (resource_id, user_id, access_time)` for the
dedupe in `update_resource_access` (lines 414-416), and with
`key := resource_id` for the resource-catalog slice (line 427). -/
def drop_duplicates [DecidableEq κ] (key : α → κ) (rows : List α) : List α :=
  drop_duplicates_go key [] rows

/-- One row of the per-course warehouse snapshot selected by
`verify_course_ids` (columns of the SQL at lines 131-148). -/
structure CourseRow where
  id : Int
  canvas_id : Int
  enrollment_term_id : Int
  name : String
  start_at : Option Timestamp
  conclude_at : Option Timestamp
deriving DecidableEq, Repr

/-- One row of the warehouse term query of `update_term`
(columns of the SQL at lines 662-674). -/
structure TermRow where
  id : Int
  canvas_id : Int
  name : String
  date_start : Option Timestamp
  date_end : Option Timestamp
deriving DecidableEq, Repr

/-- An operational-store `Course` record, with the fields `cron_udp.py`
touches.  `term` holds the id of the referenced `AcademicTerms` row
(`course.term.id` in the source); `data_last_updated` is the per-course
sync watermark. -/
structure Course where
  id : Int
  name : String
  term : Option Int
  date_start : Option Timestamp
  date_end : Option Timestamp
  data_last_updated : Option Timestamp
deriving DecidableEq, Repr

/-- A row of the operational-store `user` table as read by the identity
resolution query (lines 380-384): `sis_name` and the user id. -/
structure UserRec where
  sis_name : String
  user_id : Int
deriving DecidableEq, Repr

/-- One row of a resource-access query result, with the columns
`update_resource_access` manipulates.  The configured queries are external,
so any cell may be `NULL` (`none`). The sentinel user id −1 means
"unresolved, identified by `user_login_name`". -/
structure RARow where
  resource_id : Option String
  resource_type : Option String
  name : Option String
  user_id : Option Int
  user_login_name : Option String
  access_time : Option Timestamp
deriving DecidableEq, Repr

/-- A resource-access row after the helper columns `user_id_str` and
`user_login_name` are dropped (lines 401-402 / 409-410). -/
structure RARowCore where
  resource_id : Option String
  resource_type : Option String
  name : Option String
  user_id : Option Int
  access_time : Option Timestamp
deriving DecidableEq, Repr

/-- Dropping the `user_login_name` column from a row
(line 409-410, and the merge aftermath at lines 401-402). -/
def RARow.core (r : RARow) : RARowCore :=
  { resource_id := r.resource_id, resource_type := r.resource_type,
    name := r.name, user_id := r.user_id, access_time := r.access_time }

/-- pandas `dropna()` on the post-resolution frame: `true` iff some remaining
column is `NaN` (lines 403 and 412). -/
def RARowCore.hasNA (r : RARowCore) : Bool :=
  r.resource_id.isNone || r.resource_type.isNone || r.name.isNone ||
    r.user_id.isNone || r.access_time.isNone

/-- One row of the resource-catalog slice
`resource_access_df.filter(["resource_id", "resource_type", "name"])`
(line 426) upserted into the `resource` table. -/
structure ResourceRow where
  resource_id : Option String
  resource_type : Option String
  name : Option String
deriving DecidableEq, Repr

/-- A resource-access row after the catalog columns `resource_type` and
`name` are dropped (lines 435-436); the shape appended to `resource_access`. -/
structure RARowOut where
  resource_id : Option String
  user_id : Option Int
  access_time : Option Timestamp
deriving DecidableEq, Repr

/-- pandas `dropna()` on the final event frame (line 441). -/
def RARowOut.hasNA (r : RARowOut) : Bool :=
  r.resource_id.isNone || r.user_id.isNone || r.access_time.isNone

/-- One row of the `file_dim` query of `update_canvas_resource`
(line 264): `select id, file_state, display_name`. -/
structure FileRow where
  id : String
  file_state : String
  display_name : String
deriving DecidableEq, Repr

/-- An operational-store `Resource` record (`dashboard.models.Resource`),
with the fields the cron job touches. -/
structure Resource where
  resource_id : String
  resource_type : String
  name : String
deriving DecidableEq, Repr

/-- The write operations the cron job performs on the operational store, in
source order.  Every mutation in `cron_udp.py` is one of these:
`delete from {table} {where}` (`delete_all_records_in_table`),
`DataFrame.to_sql(..., if_exists='append')` on a generic table or on
`academic_terms` / `resource_access`, `pangres.upsert` on `resource`,
the Django ORM `update`/`delete` on `Resource` rows in
`update_canvas_resource`, `course.save()` in `update_course`, and the final
`update(data_last_updated=run_start)` watermark write (line 803). -/
inductive WriteOp where
  | deleteAll (table : String) (whereClause : String)
  | appendDf (table : String) (rows : Df)
  | appendTerms (rows : List TermRow)
  | upsertResource (rows : List ResourceRow)
  | appendResourceAccess (rows : List RARowOut)
  | resourceNameUpdate (resource_id : String) (name : String)
  | resourceDelete (resource_id : String)
  | courseSave (course : Course)
  | updateDataLastUpdated (course_ids : List Int) (t : Timestamp)
deriving DecidableEq, Repr

/-- The watermark write of line 803 is the only operation that touches
`Course.data_last_updated` wholesale. -/
def isWatermarkOp : WriteOp → Bool
  | .updateDataLastUpdated _ _ => true
  | _ => false

/-- The dataframe `util_function` actually writes: the optional
weight-reshape (lines 50-52; Python truthiness of the course id makes the
reshape conditional on a non-`None`, non-zero id) followed by the whole-row
`drop_duplicates(keep='first')` (line 55). -/
def util_prepared_df (data_warehouse_course_id : Option Int) (query_df : Df)
    (table_identifier : Option String) : Df :=
  let truthy : Bool := match data_warehouse_course_id with
                       | some cid => cid != 0
                       | none => false
  let df :=
    if table_identifier = some "weight" ∧ truthy = true then
      query_df.map (fun row => row ++ [Cell.int (data_warehouse_course_id.getD 0)])
    else query_df
  drop_duplicates (fun row => row) df

/-- `util_function` (lines 45-67): read the query result (supplied as
`query_df`), reshape for the weight query, deduplicate, then `to_sql` append;
a `to_sql` exception is logged and re-raised (lines 60-64).  Returns the trace
of performed writes and either the raised error or the status line
`"{rows} {table} : {course id}\n"`. -/
def util_function (data_warehouse_course_id : Option Int) (query_df : Df)
    (mysql_table : String) (table_identifier : Option String)
    (to_sql : String → Df → Except String Unit) :
    List WriteOp × Except String String :=
  let df := util_prepared_df data_warehouse_course_id query_df table_identifier
  match to_sql mysql_table df with
  | .error e => ([], .error e)
  | .ok _ =>
    let n := df.length
    let cid := match data_warehouse_course_id with
               | some c => toString c
               | none => ""
    ([WriteOp.appendDf mysql_table df],
     .ok (toString n ++ " " ++ mysql_table ++ " : " ++ cid ++ "\n"))

/-- `verify_course_ids` (lines 121-166).  For each supported course id the
warehouse is queried (`warehouse_course_rows`); an empty result marks the id
invalid, otherwise the rows join the course-data frame (source order:
append per loop iteration, then `pd.concat`).  Returns
`(invalid_course_ids, course_data)`. -/
def verify_course_ids (supported : List Int)
    (warehouse_course_rows : Int → List CourseRow) :
    List Int × List CourseRow :=
  match supported with
  | [] => ([], [])
  | course_id :: rest =>
    let r := verify_course_ids rest warehouse_course_rows
    match warehouse_course_rows course_id with
    | [] => (course_id :: r.1, r.2)
    | rows => (r.1, rows ++ r.2)

/-- The new-term id list of `update_term` (line 678):
warehouse term ids not already present in `academic_terms`. -/
def new_term_ids (warehouse_term_df : List TermRow)
    (existing_terms_ids : List Int) : List Int :=
  (warehouse_term_df.map (fun r => r.id)).filter
    (fun id => id ∉ existing_terms_ids)

/-- The warehouse term rows selected for insertion (line 683):
`warehouse_term_df.loc[warehouse_term_df['id'].isin(new_term_ids)]`. -/
def new_term_rows (warehouse_term_df : List TermRow)
    (existing_terms_ids : List Int) : List TermRow :=
  warehouse_term_df.filter
    (fun r => r.id ∈ new_term_ids warehouse_term_df existing_terms_ids)

/-- `update_term` (lines 655-692): compute the warehouse terms whose id is
absent from the operational store and append exactly those rows; a `to_sql`
failure is re-raised; when there is nothing new, no write happens and the
empty status is returned. -/
def update_term (warehouse_term_df : List TermRow)
    (existing_terms_ids : List Int)
    (terms_to_sql : List TermRow → Except String Unit) :
    List WriteOp × Except String String :=
  if new_term_ids warehouse_term_df existing_terms_ids = [] then
    ([], .ok "")
  else
    let new_term_df := new_term_rows warehouse_term_df existing_terms_ids
    match terms_to_sql new_term_df with
    | .error e => ([], .error e)
    | .ok _ =>
      let n := new_term_df.length
      let ids := new_term_ids warehouse_term_df existing_terms_ids
      ([WriteOp.appendTerms new_term_df],
       .ok ("Added " ++ toString n ++ " new records to academic_terms table: "
            ++ toString ids ++ "\n"))

/-- The two `DateTime` fields `update_course` soft-updates. -/
inductive CourseDateField where
  | date_start
  | date_end
deriving DecidableEq, Repr

/-- `getattr(model_inst, field_name)` for the two date fields. -/
def Course.getDate (c : Course) : CourseDateField → Option Timestamp
  | .date_start => c.date_start
  | .date_end => c.date_end

/-- `setattr(model_inst, field_name, value)` for the two date fields. -/
def Course.setDate (c : Course) : CourseDateField → Timestamp → Course
  | .date_start, v => { c with date_start := some v }
  | .date_end, v => { c with date_end := some v }

/-- The `field_name` string appended to `updated_fields`. -/
def CourseDateField.fieldName : CourseDateField → String
  | .date_start => "date_start"
  | .date_end => "date_end"

/-- `soft_update_datetime_field` (lines 87-106): if the field already has a
value the update is skipped; otherwise a truthy warehouse value is stored
(normalised to UTC — a timezone relabelling, identity on the model's
timestamps) and `[field_name]` is returned, else `[]`. -/
def soft_update_datetime_field (model_inst : Course)
    (field_name : CourseDateField)
    (warehouse_field_value : Option Timestamp) : Course × List String :=
  match model_inst.getDate field_name with
  | some _ => (model_inst, [])
  | none =>
    match warehouse_field_value with
    | some w => (model_inst.setDate field_name w, [field_name.fieldName])
    | none => (model_inst, [])

/-- The name step of the `update_course` loop body (lines 710-714):
overwrite `name` from the warehouse when different. -/
def course_name_merged (warehouse_course_dict : CourseRow) (course : Course) :
    Course :=
  if course.name ≠ warehouse_course_dict.name then
    { course with name := warehouse_course_dict.name }
  else course

/-- `["name"]` appended to `updated_fields` exactly when the name step
changed the name (line 714). -/
def course_name_fields (warehouse_course_dict : CourseRow) (course : Course) :
    List String :=
  if course.name ≠ warehouse_course_dict.name then ["name"] else []

/-- The term-step condition (line 717):
`(course.term is None) or (course.term.id != warehouse_term_id)`. -/
def term_needs_update (warehouse_course_dict : CourseRow) (course : Course) :
    Bool :=
  match course.term with
  | none => true
  | some t => t != warehouse_course_dict.enrollment_term_id

/-- The term assignment of line 718, applied when `term_needs_update`. -/
def course_term_merged (warehouse_course_dict : CourseRow) (tn : Bool)
    (c1 : Course) : Course :=
  if tn = true then
    { c1 with term := some warehouse_course_dict.enrollment_term_id }
  else c1

/-- The course record after the name and term steps of one loop body. -/
def course_merged_c2 (warehouse_course_dict : CourseRow) (course : Course) :
    Course :=
  course_term_merged warehouse_course_dict
    (term_needs_update warehouse_course_dict course)
    (course_name_merged warehouse_course_dict course)

/-- The `date_start` soft update of one loop body (lines 722-725). -/
def course_merged_s3 (warehouse_course_dict : CourseRow) (course : Course) :
    Course × List String :=
  soft_update_datetime_field (course_merged_c2 warehouse_course_dict course)
    .date_start warehouse_course_dict.start_at

/-- The `date_end` soft update of one loop body (lines 726-729). -/
def course_merged_s4 (warehouse_course_dict : CourseRow) (course : Course) :
    Course × List String :=
  soft_update_datetime_field
    (course_merged_s3 warehouse_course_dict course).1
    .date_end warehouse_course_dict.conclude_at

/-- The in-memory course record after the full merge of one loop body
(lines 710-729): name step, term step, then the two soft date updates. -/
def course_merged (warehouse_course_dict : CourseRow) (course : Course) :
    Course :=
  (course_merged_s4 warehouse_course_dict course).1

/-- The `updated_fields` list accumulated by one loop body, in source
order: `"name"`, `"term"`, then the names returned by the two
`soft_update_datetime_field` calls. -/
def course_merged_fields (warehouse_course_dict : CourseRow)
    (course : Course) : List String :=
  course_name_fields warehouse_course_dict course
    ++ (if term_needs_update warehouse_course_dict course = true
        then ["term"] else [])
    ++ (course_merged_s3 warehouse_course_dict course).2
    ++ (course_merged_s4 warehouse_course_dict course).2

/-- The body of the `update_course` loop (lines 706-733) for one course and
its warehouse row: overwrite `name` when different, overwrite `term` when
absent or different (`AcademicTerms.objects.get`, line 718, raises
`DoesNotExist` when the term id is not in `academic_terms` — checked up
front here, observationally equivalent since the raise discards the
unsaved in-memory edits), soft-update the two date fields, and report the
`updated_fields` list (non-empty exactly when `save()` is called). -/
def update_course_row (warehouse_course_dict : CourseRow)
    (term_ids : List Int) (course : Course) :
    Except String (Course × List String) :=
  if term_needs_update warehouse_course_dict course = true ∧
      warehouse_course_dict.enrollment_term_id ∉ term_ids then
    .error "AcademicTerms.DoesNotExist"
  else
    .ok (course_merged warehouse_course_dict course,
         course_merged_fields warehouse_course_dict course)

/-- The `update_course` loop (lines 694-734) over the filtered course
queryset: for each course, look up the first warehouse row with the matching
id (`.loc[...].iloc[0]`; `IndexError` when absent), merge via
`update_course_row`, and emit a `courseSave` write when any field changed.
Earlier saves persist when a later iteration raises. -/
def update_course_loop (warehouse_courses_data : List CourseRow)
    (term_ids : List Int) :
    List Course → List WriteOp × Except String String
  | [] => ([], .ok "")
  | course :: rest =>
    match (warehouse_courses_data.filter (fun r => r.id = course.id)).head? with
    | none => ([], .error "IndexError")
    | some row =>
      match update_course_row row term_ids course with
      | .error e => ([], .error e)
      | .ok (course', updated_fields) =>
        let ops : List WriteOp :=
          if updated_fields ≠ [] then [WriteOp.courseSave course'] else []
        let st : String :=
          if updated_fields ≠ [] then
            "Course " ++ toString course.id ++ ": updated "
              ++ String.intercalate ", " updated_fields ++ "\n"
          else ""
        match update_course_loop warehouse_courses_data term_ids rest with
        | (ops2, .error e) => (ops ++ ops2, .error e)
        | (ops2, .ok st2) => (ops ++ ops2, .ok (st ++ st2))

/-- `update_course` (lines 694-734): the status header naming the locked
course ids, then the per-course merge loop. -/
def update_course (warehouse_courses_data : List CourseRow)
    (term_ids : List Int) (courses : List Course)
    (valid_locked_course_ids : List Int) :
    List WriteOp × Except String String :=
  let n := courses.length
  let courses_string :=
    String.intercalate ", " (valid_locked_course_ids.map toString)
  let header := toString n ++ " course(s): " ++ courses_string ++ "\n"
  match update_course_loop warehouse_courses_data term_ids courses with
  | (ops, .error e) => (ops, .error e)
  | (ops, .ok st) => (ops, .ok (header ++ st))

/-- The identity-resolution step of `update_resource_access`
(lines 370-403), entered when the frame has a `user_login_name` column and
some row carries the sentinel user id −1:

* `login_names` — the frame's distinct non-null login names (371-373);
* `user_id_df` — operational-store users whose `sis_name` is among them
  (380-384; the `cast(user_id as char)` string detour exists only to defeat
  a pandas int64/scientific-notation artefact and round-trips the integer
  id, so the resolved id is modelled as the integer);
* outer merge on `user_login_name` (391-393) — every `user_id_df` row's
  `sis_name` is one of the frame's login names by construction of the query,
  so no right-only rows arise and the merge pairs each frame row with each
  matching user (duplicating a row when several users share the name, and
  pairing `none` when no user matches; pandas does not join null keys);
* rows whose `user_id` is the sentinel −1 get the merged id (396-398),
  which is `NaN` when unresolved;
* the helper columns are dropped and then `dropna()` removes every row that
  still has a `NaN` anywhere — in particular every still-unresolved row
  (401-403). -/
def ra_login_names (df : List RARow) : List String :=
  (df.filterMap (fun r => r.user_login_name)).dedup

/-- The `user_id_df` query result (lines 380-384): operational-store users
whose `sis_name` is among the frame's login names. -/
def ra_user_id_df (user_table : List UserRec) (df : List RARow) :
    List UserRec :=
  user_table.filter (fun u => u.sis_name ∈ ra_login_names df)

/-- The pairs the outer merge (lines 391-393) produces for one frame row:
the row paired with each matching user's id, or with `none` when the login
name is null or matches no user. -/
def ra_merge_row (user_id_df : List UserRec) (r : RARow) :
    List (RARow × Option Int) :=
  match r.user_login_name with
  | none => [(r, none)]
  | some ln =>
    match user_id_df.filter (fun u => u.sis_name = ln) with
    | [] => [(r, none)]
    | m :: ms => (m :: ms).map (fun u => (r, some u.user_id))

/-- The sentinel replacement (lines 396-398): a row with user id −1 takes
the merged `user_id_str` value (`none` when unresolved). -/
def ra_replace (p : RARow × Option Int) : RARow :=
  if p.1.user_id = some (-1) then { p.1 with user_id := p.2 } else p.1

def resolve_user_ids (user_table : List UserRec) (df : List RARow) :
    List RARowCore :=
  (((df.flatMap (ra_merge_row (ra_user_id_df user_table df))).map
      ra_replace).map RARow.core).filter (fun r => !r.hasNA)

/-- The result of one batched resource-access query (BigQuery job or LRS
`read_sql`): whether the configured queries produced a `user_login_name`
column (line 365), the rows, and the billed bytes (BigQuery only). -/
structure RAQueryResult where
  has_user_login_name : Bool
  rows : List RARow
  total_bytes_billed : Nat
deriving Repr

/-- The post-query frame pipeline of one batch (lines 365-441): identity
resolution (or the warning / plain column drop), `dropna()` (412),
dedupe on `(resource_id, user_id, access_time)` keeping the first
occurrence (414-416). -/
def ra_deduped_rows (user_table : List UserRec) (q : RAQueryResult) :
    List RARowCore :=
  let cores : List RARowCore :=
    if q.has_user_login_name = false then
      -- only a warning is logged; the frame (which lacks the column) is kept
      q.rows.map RARow.core
    else if q.rows.any (fun r => r.user_id = some (-1)) then
      resolve_user_ids user_table q.rows
    else
      -- `drop(columns='user_login_name')` (lines 409-410)
      q.rows.map RARow.core
  let cores := cores.filter (fun r => !r.hasNA)
  drop_duplicates (fun r => (r.resource_id, r.user_id, r.access_time)) cores

/-- The resource-catalog slice of a deduped batch (lines 426-429):
project to `(resource_id, resource_type, name)` and dedupe on
`resource_id` keeping the first occurrence. -/
def ra_resource_df (cores : List RARowCore) : List ResourceRow :=
  drop_duplicates (fun r : ResourceRow => r.resource_id)
    (cores.map (fun r =>
      ({ resource_id := r.resource_id, resource_type := r.resource_type,
         name := r.name } : ResourceRow)))

/-- The event rows appended to `resource_access` (lines 435-441): drop the
catalog columns, then `dropna()` again. -/
def ra_out_rows (cores : List RARowCore) : List RARowOut :=
  (cores.map (fun r =>
    ({ resource_id := r.resource_id, user_id := r.user_id,
       access_time := r.access_time } : RARowOut))).filter
    (fun r => !r.hasNA)

/-- One entry of `settings.RESOURCE_ACCESS_CONFIG`: the query as ordered
lines of text plus the optional per-kind cutoff-condition fragment. -/
structure QueryObj where
  query : List String
  query_data_last_updated_condition : Option String
deriving Repr

/-- The configuration surface `cron_udp.py` consumes from
`dashboard/settings.py`. -/
structure Settings where
  lrs_is_bigquery : Bool
  cron_bq_in_limit : Nat
  canvas_data_id_increment : Int
  resource_access_config : List (String × QueryObj)
  views_disabled : List String
  is_unizin : Bool
deriving Repr

/-- The unioned per-kind query text built inside the batch loop
(lines 304-317; it does not depend on the batch, so it is computed once):
join each configured query's lines with spaces, append the kind's own
cutoff fragment — or, for BigQuery, the generic one — when a cutoff

exists, and join the kinds with `"  UNION ALL   "`. -/
def build_final_query (sett : Settings) (data_last_updated : Option Timestamp) :
    String :=
  let qs := sett.resource_access_config.map (fun kv =>
    let query := String.intercalate " " kv.2.query
    match data_last_updated with
    | none => query
    | some _ =>
      match kv.2.query_data_last_updated_condition with
      | some cond => query ++ " " ++ cond ++ " "
      | none =>
        if sett.lrs_is_bigquery then
          query ++ " and event_time > CAST(@data_last_updated as DATETIME) "
        else query)
  String.intercalate "  UNION ALL   " qs

/-- Modelled from the spec: `CourseQuerySet.get_data_earliest_date`
(`dashboard/models.py`, not under `src/`) — "the earliest `last_synced_at`
among the locked course set (if any course has never synced, cutoff is
absent → full pull)". -/
def get_data_earliest_date (courses : List Course) : Option Timestamp :=
  if courses.any (fun c => c.data_last_updated.isNone) then none
  else (courses.filterMap (fun c => c.data_last_updated)).min?

/-- Modelled from the spec: `db_util.incremented_id_to_canvas_id`
(`dashboard/common/db_util.py`, not under `src/`) — the "transformed/offset
variant for sources requiring an alternate numbering scheme", using the
configured "numeric id-offset constant". -/
def incremented_id_to_canvas_id (increment : Int) (id : Int) : Int :=
  id - increment

/-- Abstraction of the BigQuery cost status lines (477-481): the TByte
conversion and two-decimal price rounding are floating-point and not
modelled; the line is kept as an opaque function of the billed byte count,
which is all the sync logic contributes to it. -/
def bq_cost_line (total_bytes_billed : Nat) : String :=
  "TBytes billed for BQ: " ++ toString total_bytes_billed ++ "\n"

/-- Everything a run of `DashboardCronJob.do` reads from outside, plus the
outcome oracles of its fallible external writes.

* `run_start` / `run_end` — `datetime.now` at lines 741 and 750/807;
* `supported_courses` / `supported_courses_after` — the two calls to
  `Course.objects.get_supported_courses()` (lines 129 and 795; the second
  may see courses users added mid-run);
* `warehouse_course_rows` — the per-id course query of
  `verify_course_ids`;
* `term_df`, `academic_term_ids` — the warehouse term query and the ids of
  `AcademicTerms.objects.all()`;
* `course_table` — the operational `course` table;
* `user_df` … `weight_df` — per-course warehouse query results of the
  full-refresh table stages; `metadata_df` the metadata query result;
* `user_table` — the operational `user` table read by identity resolution;
* `ra_query` — one batched resource-access query: the unioned query text,
  the batch course ids and their offset variants, to rows or a raised
  exception (the BigQuery call "that could result in an exception");
* `file_query` — the `file_dim` query of `update_canvas_resource`;
* `to_sql`, `terms_to_sql`, `resource_upsert`, `ra_to_sql` — the outcomes
  of the external bulk writes;
* `delete_rowcount` — rows reported deleted by `delete from {table}`. -/
structure CronInputs where
  run_start : Timestamp
  run_end : Timestamp
  sett : Settings
  supported_courses : List Int
  supported_courses_after : List Int
  warehouse_course_rows : Int → List CourseRow
  term_df : List TermRow
  academic_term_ids : List Int
  course_table : List Course
  user_df : Int → Df
  groups_df : Int → Df
  assignment_df : Int → Df
  submission_df : Int → Df
  weight_df : Int → Df
  metadata_df : Df
  user_table : List UserRec
  ra_query : String → List Int → List Int → Except String RAQueryResult
  file_query : Except String (List FileRow)
  to_sql : String → Df → Except String Unit
  terms_to_sql : List TermRow → Except String Unit
  resource_upsert : List ResourceRow → Except String Unit
  ra_to_sql : List RARowOut → Except String Unit
  delete_rowcount : String → Nat

/-- One batch of the `update_resource_access` loop (lines 300-474): query
the selected source (exceptions propagate), skip empty results, run the
frame pipeline, upsert the resource catalog (re-raised on failure, line
452-460), append the event rows (re-raised on failure, lines 463-469), and
produce the `return_string` line plus the billed bytes. -/
def process_ra_batch (inp : CronInputs) (final_query : String)
    (batch : List Int) : List WriteOp × Except String (String × Nat) :=
  let ids_short := batch.map
    (fun id => incremented_id_to_canvas_id inp.sett.canvas_data_id_increment id)
  match inp.ra_query final_query batch ids_short with
  | .error e => ([], .error e)
  | .ok q =>
    if q.rows.length = 0 then ([], .ok ("", q.total_bytes_billed))
    else
      let cores := ra_deduped_rows inp.user_table q
      let resource_df := ra_resource_df cores
      let out_rows := ra_out_rows cores
      match inp.resource_upsert resource_df with
      | .error e => ([], .error e)
      | .ok _ =>
        match inp.ra_to_sql out_rows with
        | .error e => ([WriteOp.upsertResource resource_df], .error e)
        | .ok _ =>
          let n := out_rows.length
          let courses_str := String.intercalate ", " (batch.map toString)
          ([WriteOp.upsertResource resource_df,
            WriteOp.appendResourceAccess out_rows],
           .ok (toString n ++ " rows for courses [" ++ courses_str ++ "]\n",
                q.total_bytes_billed))

/-- The batch loop of `update_resource_access`: accumulate writes, the
`return_string` pieces and billed bytes; a batch exception propagates but
earlier batches' writes remain performed. -/
def ra_loop (inp : CronInputs) (final_query : String) :
    List (List Int) → List WriteOp × Except String (String × Nat)
  | [] => ([], .ok ("", 0))
  | b :: rest =>
    match process_ra_batch inp final_query b with
    | (ops, .error e) => (ops, .error e)
    | (ops, .ok (line, bytes1)) =>
      match ra_loop inp final_query rest with
      | (ops2, .error e) => (ops ++ ops2, .error e)
      | (ops2, .ok (lines, bytes2)) =>
        (ops ++ ops2, .ok (line ++ lines, bytes1 + bytes2))

/-- `update_resource_access` (lines 279-482): compute the incremental
cutoff, pre-emptively delete `resource_access` rows after it, run the batch
loop over `split_list(valid_ids, CRON_BQ_IN_LIMIT)`, and return `status`
(the delete line plus, for BigQuery, the cost line — the accumulated
`return_string` is only logged, never returned). -/
def update_resource_access (inp : CronInputs) (valid_ids : List Int) :
    List WriteOp × Except String String :=
  let courses := inp.course_table.filter (fun c => c.id ∈ valid_ids)
  let data_last_updated := get_data_earliest_date courses
  let nDel := inp.delete_rowcount "resource_access"
  let delStatus := "\n" ++ toString nDel ++ " rows deleted from resource_access\n"
  let delOp := WriteOp.deleteAll "resource_access" "WHERE access_time > %s"
  let final_query := build_final_query inp.sett data_last_updated
  match ra_loop inp final_query
      (split_list valid_ids inp.sett.cron_bq_in_limit) with
  | (ops, .error e) => (delOp :: ops, .error e)
  | (ops, .ok (_return_string, bytes1)) =>
    let costLine :=
      if inp.sett.lrs_is_bigquery then bq_cost_line bytes1 else ""
    (delOp :: ops, .ok (delStatus ++ costLine))

/-- The body of the `update_canvas_resource` loop (lines 269-275) for one
`file_dim` row: an `available` file updates the name of the matching
`Resource` rows; any other `file_state` deletes them. -/
def update_canvas_resource_row (row : FileRow) : WriteOp × String :=
  if row.file_state = "available" then
    (WriteOp.resourceNameUpdate row.id row.display_name,
     "Row " ++ row.id ++ " updated to " ++ row.display_name ++ "\n")
  else
    (WriteOp.resourceDelete row.id,
     "Row " ++ row.id ++ " removed as it is not available\n")

/-- `update_canvas_resource` (lines 256-276): fetch the `file_dim` rows for
the locked courses (a read failure propagates) and apply
`update_canvas_resource_row` to each. -/
def update_canvas_resource (file_query : Except String (List FileRow)) :
    List WriteOp × Except String String :=
  match file_query with
  | .error e => ([], .error e)
  | .ok df_attach =>
    (df_attach.map (fun r => (update_canvas_resource_row r).1),
     .ok (String.join (df_attach.map (fun r => (update_canvas_resource_row r).2))))

/-- Django ORM semantics of the two `Resource` writes of
`update_canvas_resource`: `Resource.objects.filter(resource_id=i).update
(name=n)` rewrites the name of every matching row;
`...filter(resource_id=i).delete()` removes every matching row.  Other
write operations do not touch the `Resource` table rows this way. -/
def applyResourceOp (resources : List Resource) : WriteOp → List Resource
  | .resourceNameUpdate rid n =>
    resources.map (fun r =>
      if r.resource_id = rid then { r with name := n } else r)
  | .resourceDelete rid =>
    resources.filter (fun r => r.resource_id ≠ rid)
  | _ => resources

/-- The per-course loop shared by the full-refresh stages
(`update_user`, `update_groups`, `update_assignment`, `submission`,
`weight_consideration`): one `util_function` call per locked course id; a
raised `to_sql` exception propagates, keeping earlier writes. -/
def run_course_loop (mysql_table : String) (table_identifier : Option String)
    (to_sql : String → Df → Except String Unit) (dfs : Int → Df) :
    List Int → List WriteOp × Except String String
  | [] => ([], .ok "")
  | cid :: rest =>
    match util_function (some cid) (dfs cid) mysql_table table_identifier
        to_sql with
    | (ops, .error e) => (ops, .error e)
    | (ops, .ok st) =>
      match run_course_loop mysql_table table_identifier to_sql dfs rest with
      | (ops2, .error e) => (ops ++ ops2, .error e)
      | (ops2, .ok st2) => (ops ++ ops2, .ok (st ++ st2))

/-- The common shape of the full-refresh stages (lines 170-224, 485-547,
550-587, 590-614, 617-653): delete every row of the target table, then loop
`util_function` over the locked course ids. -/
def full_refresh_stage (mysql_table : String)
    (table_identifier : Option String) (dfs : Int → Df)
    (to_sql : String → Df → Except String Unit)
    (delete_rowcount : String → Nat) (valid_ids : List Int) :
    List WriteOp × Except String String :=
  let n := delete_rowcount mysql_table
  let delStatus := "\n" ++ toString n ++ " rows deleted from " ++ mysql_table
    ++ "\n"
  let delOp := WriteOp.deleteAll mysql_table ""
  match run_course_loop mysql_table table_identifier to_sql dfs valid_ids with
  | (ops, .error e) => (delOp :: ops, .error e)
  | (ops, .ok st) => (delOp :: ops, .ok (delStatus ++ st))

/-- `update_user` (lines 170-224). -/
def update_user (inp : CronInputs) (valid_ids : List Int) :
    List WriteOp × Except String String :=
  full_refresh_stage "user" none inp.user_df inp.to_sql inp.delete_rowcount
    valid_ids

/-- `update_groups` (lines 485-547). -/
def update_groups (inp : CronInputs) (valid_ids : List Int) :
    List WriteOp × Except String String :=
  full_refresh_stage "assignment_groups" none inp.groups_df inp.to_sql
    inp.delete_rowcount valid_ids

/-- `update_assignment` (lines 550-587). -/
def update_assignment (inp : CronInputs) (valid_ids : List Int) :
    List WriteOp × Except String String :=
  full_refresh_stage "assignment" none inp.assignment_df inp.to_sql
    inp.delete_rowcount valid_ids

/-- `submission` (lines 590-614). -/
def submission (inp : CronInputs) (valid_ids : List Int) :
    List WriteOp × Except String String :=
  full_refresh_stage "submission" none inp.submission_df inp.to_sql
    inp.delete_rowcount valid_ids

/-- `weight_consideration` (lines 617-653): the boolean-flag query with the
`'weight'` table identifier, so `util_function` pairs the flag back with the
originating course id. -/
def weight_consideration (inp : CronInputs) (valid_ids : List Int) :
    List WriteOp × Except String String :=
  full_refresh_stage "assignment_weight_consideration" (some "weight")
    inp.weight_df inp.to_sql inp.delete_rowcount valid_ids

/-- `update_unizin_metadata` (lines 228-252): delete `unizin_metadata`,
then a single `util_function` call with the empty-string course id. -/
def update_unizin_metadata (inp : CronInputs) :
    List WriteOp × Except String String :=
  let n := inp.delete_rowcount "unizin_metadata"
  let delStatus := "\n" ++ toString n ++ " rows deleted from unizin_metadata\n"
  let delOp := WriteOp.deleteAll "unizin_metadata" ""
  match util_function none inp.metadata_df "unizin_metadata" none inp.to_sql with
  | (ops, .error e) => (delOp :: ops, .error e)
  | (ops, .ok st) => (delOp :: ops, .ok (delStatus ++ st))

/-- The guarded resource block of `do` (lines 781-789): skipped when
`'show_resources_accessed'` is in `VIEWS_DISABLED`; otherwise
`update_resource_access` then `update_canvas_resource` inside one
`try`/`except` — an exception from either is caught, its text is appended
to the status, and the `exception_in_run` flag is set.  Returns the writes,
the status addition and the flag. -/
def resource_stage (inp : CronInputs) (valid_ids : List Int) :
    List WriteOp × String × Bool :=
  if "show_resources_accessed" ∈ inp.sett.views_disabled then ([], "", false)
  else
    match update_resource_access inp valid_ids with
    | (ops1, .error e) => (ops1, e, true)
    | (ops1, .ok st1) =>
      match update_canvas_resource inp.file_query with
      | (ops2, .error e) => (ops1 ++ ops2, st1 ++ e, true)
      | (ops2, .ok st2) => (ops1 ++ ops2, st1 ++ st2, false)

/-- The non-empty-course branch of `do` (lines 766-789): `update_course`,
the five full-refresh stages, then the guarded resource block.  Any
uncaught stage exception propagates (keeping the writes performed so far);
on completion the accumulated status and the `exception_in_run` flag are
returned. -/
def course_stages (inp : CronInputs) (course_data : List CourseRow)
    (valid : List Int) (terms_after : List Int) :
    List WriteOp × Except String (String × Bool) :=
  let courses := inp.course_table.filter (fun c => c.id ∈ valid)
  match update_course course_data terms_after courses valid with
  | (o1, .error e) => (o1, .error e)
  | (o1, .ok st1) =>
  match update_user inp valid with
  | (o2, .error e) => (o1 ++ o2, .error e)
  | (o2, .ok st2) =>
  match update_groups inp valid with
  | (o3, .error e) => (o1 ++ o2 ++ o3, .error e)
  | (o3, .ok st3) =>
  match update_assignment inp valid with
  | (o4, .error e) => (o1 ++ o2 ++ o3 ++ o4, .error e)
  | (o4, .ok st4) =>
  match submission inp valid with
  | (o5, .error e) => (o1 ++ o2 ++ o3 ++ o4 ++ o5, .error e)
  | (o5, .ok st5) =>
  match weight_consideration inp valid with
  | (o6, .error e) => (o1 ++ o2 ++ o3 ++ o4 ++ o5 ++ o6, .error e)
  | (o6, .ok st6) =>
  let r := resource_stage inp valid
  (o1 ++ o2 ++ o3 ++ o4 ++ o5 ++ o6 ++ r.1,
   .ok (st1 ++ st2 ++ st3 ++ st4 ++ st5 ++ st6 ++ r.2.1, r.2.2))

/-- `DashboardCronJob.do` (lines 736-811).  Control flow, in source order:
capture `run_start`; validate the supported course ids and — when any is
invalid — return the error summary having performed no write (the source
wraps this early return in a 1-tuple `(status,)`; the summary string inside
it is what is modelled); lock the valid ids; term sync; either skip the
course-scoped stages (leaving `exception_in_run` unassigned — modelled as
`none`) or run them (flag `some`); metadata sync when the warehouse is
Unizin-flavoured; note courses added mid-run (log only); finally read
`exception_in_run` — an unassigned read raises `UnboundLocalError`,
otherwise a clear flag advances `data_last_updated` to `run_start` for the
locked ids and a set flag leaves every watermark unchanged. -/
def cron_do (inp : CronInputs) : List WriteOp × Except String String :=
  let run_start := inp.run_start
  let status0 := "Start cron: " ++ toString run_start ++ " UTC\n"
  let endLine := "End cron: " ++ toString inp.run_end ++ "\n"
  let cv := verify_course_ids inp.supported_courses inp.warehouse_course_rows
  if cv.1 ≠ [] then
    ([], .ok (status0 ++ "ERROR: Those course ids are invalid: "
              ++ toString cv.1 ++ "\n" ++ endLine))
  else
    let valid := cv.2.map (fun r => r.id)
    match update_term inp.term_df inp.academic_term_ids inp.terms_to_sql with
    | (termOps, .error e) => (termOps, .error e)
    | (termOps, .ok termSt) =>
      let status1 := status0 ++ termSt
      let mid : List WriteOp × Except String (String × Option Bool) :=
        if valid.length = 0 then
          ([], .ok ("Skipped course-related table updates.\n", none))
        else
          let terms_after := inp.academic_term_ids ++
            (new_term_rows inp.term_df inp.academic_term_ids).map
              (fun r => r.id)
          match course_stages inp cv.2 valid terms_after with
          | (ops, .error e) => (ops, .error e)
          | (ops, .ok (st, exc)) => (ops, .ok (st, some exc))
      match mid with
      | (midOps, .error e) => (termOps ++ midOps, .error e)
      | (midOps, .ok (midSt, excQ)) =>
        let status2 := status1 ++ midSt
        let meta : List WriteOp × Except String String :=
          if inp.sett.is_unizin then update_unizin_metadata inp
          else ([], .ok "")
        match meta with
        | (mOps, .error e) => (termOps ++ midOps ++ mOps, .error e)
        | (mOps, .ok mSt) =>
          let status3 := status2 ++ mSt
          let opsSoFar := termOps ++ midOps ++ mOps
          let _courses_added :=
            inp.supported_courses_after.filter (fun c => c ∉ valid)
          match excQ with
          | none => (opsSoFar, .error "UnboundLocalError")
          | some exc =>
            if exc = false then
              (opsSoFar ++ [WriteOp.updateDataLastUpdated valid run_start],
               .ok (status3 ++ endLine))
            else
              (opsSoFar, .ok (status3 ++ endLine))

/-- Whether an `Except` result is a success (no exception was raised). -/
def exceptIsOk : Except ε α → Bool
  | .ok _ => true
  | .error _ => false

/- ### Lemmas about `split_list` -/

theorem split_list_flatten (a_list : List α) (size : Nat) (h : 0 < size) :
    (split_list a_list size).flatten = a_list := by
  match a_list, size with
  | [], _ => simp [split_list]
  | x :: xs, s + 1 =>
    have ih := split_list_flatten ((x :: xs).drop (s + 1)) (s + 1)
      (Nat.succ_pos s)
    rw [split_list]
    simp only [List.flatten_cons, ih]
    exact List.take_append_drop (s + 1) (x :: xs)
termination_by a_list.length
decreasing_by
  simp only [List.length_drop, List.length_cons]
  omega

theorem split_list_chunk_le (a_list : List α) (size : Nat) :
    ∀ chunk ∈ split_list a_list size, chunk.length ≤ size := by
  match a_list, size with
  | [], sz => intro chunk hc; simp [split_list] at hc
  | x :: xs, 0 => intro chunk hc; simp [split_list] at hc
  | x :: xs, s + 1 =>
    intro chunk hc
    rw [split_list] at hc
    rcases List.mem_cons.mp hc with h1 | h2
    · subst h1; exact List.length_take_le _ _
    · exact split_list_chunk_le ((x :: xs).drop (s + 1)) (s + 1) chunk h2
termination_by a_list.length
decreasing_by
  simp only [List.length_drop, List.length_cons]
  omega

/-- C9: for every list of course ids and every positive batch size,
`split_list` partitions the list into consecutive chunks each of length at
most the batch size, and concatenating the chunks in order yields exactly
the original list (every id in exactly one batch, order preserved, nothing
duplicated or dropped). -/
theorem claim_C9_split_list_partitions (course_ids : List Int) (size : Nat)
    (h : 0 < size) :
    (∀ chunk ∈ split_list course_ids size, chunk.length ≤ size) ∧
    (split_list course_ids size).flatten = course_ids :=
  ⟨split_list_chunk_le course_ids size, split_list_flatten course_ids size h⟩

/-- Witness for C9 at a concrete list and batch size. -/
theorem claim_C9_witness :
    0 < 2 ∧ (split_list ([1, 2, 3, 4, 5] : List Int) 2).flatten
      = [1, 2, 3, 4, 5] :=
  ⟨by decide, (claim_C9_split_list_partitions [1, 2, 3, 4, 5] 2 (by decide)).2⟩

/- ### C7: `util_function` re-raises `to_sql` failures -/

/-- C7: whenever the bulk-append (`to_sql`) step of a table sync fails,
`util_function` re-raises the exception to its caller rather than
swallowing it (and reports no successful write). -/
theorem claim_C7_util_function_reraises (data_warehouse_course_id : Option Int)
    (query_df : Df) (mysql_table : String) (table_identifier : Option String)
    (to_sql : String → Df → Except String Unit) (e : String)
    (h : to_sql mysql_table
        (util_prepared_df data_warehouse_course_id query_df table_identifier)
        = .error e) :
    util_function data_warehouse_course_id query_df mysql_table
      table_identifier to_sql = ([], .error e) := by
  simp only [util_function, h]

/-- Witness for C7: a concrete failing `to_sql` propagates from
`util_function`. -/
theorem claim_C7_witness :
    util_function (some 17) [[Cell.int 1]] "user" none
      (fun _ _ => .error "to_sql failed") = ([], .error "to_sql failed") :=
  claim_C7_util_function_reraises (some 17) [[Cell.int 1]] "user" none
    (fun _ _ => .error "to_sql failed") "to_sql failed" rfl

/- ### C10: `update_canvas_resource` updates or deletes resource rows -/

/-- C10: for every `file_dim` row, when `file_state` is `'available'` the
write emitted by `update_canvas_resource_row` renames every matching
`Resource` row to the display name (deleting none), and otherwise it deletes
every matching `Resource` row (keeping all others) — so the canvas-resource
sync can remove `Resource` rows, not only update them in place. -/
theorem claim_C10_canvas_resource_update_or_delete (row : FileRow)
    (resources : List Resource) :
    (row.file_state = "available" →
      (applyResourceOp resources (update_canvas_resource_row row).1).length
          = resources.length ∧
      (∀ r ∈ applyResourceOp resources (update_canvas_resource_row row).1,
        r.resource_id = row.id → r.name = row.display_name)) ∧
    (row.file_state ≠ "available" →
      (∀ r ∈ applyResourceOp resources (update_canvas_resource_row row).1,
        r.resource_id ≠ row.id) ∧
      (∀ r ∈ resources, r.resource_id ≠ row.id →
        r ∈ applyResourceOp resources (update_canvas_resource_row row).1)) := by
  constructor
  · intro havail
    simp only [update_canvas_resource_row, havail, if_pos rfl, applyResourceOp]
    constructor
    · exact List.length_map _ _
    · intro r hr hid
      rcases List.mem_map.mp hr with ⟨a, _, rfl⟩
      by_cases hm : a.resource_id = row.id
      · simp [hm]
      · simp only [if_neg hm] at hid ⊢
        exact absurd hid hm
  · intro hnot
    have hrow : update_canvas_resource_row row =
        (WriteOp.resourceDelete row.id,
         "Row " ++ row.id ++ " removed as it is not available\n") := by
      unfold update_canvas_resource_row
      rw [if_neg hnot]
    rw [hrow]
    simp only [applyResourceOp]
    constructor
    · intro r hr
      exact of_decide_eq_true (List.mem_filter.mp hr).2
    · intro r hr hne
      exact List.mem_filter.mpr ⟨hr, decide_eq_true hne⟩

/-- Witness for C10: deleting branch at a concrete row and table — the
matching resource is gone from the result. -/
theorem claim_C10_witness :
    ∀ r ∈ applyResourceOp
        [{ resource_id := "f1", resource_type := "file", name := "n1" },
         { resource_id := "f2", resource_type := "file", name := "n2" }]
        (update_canvas_resource_row
          { id := "f1", file_state := "deleted", display_name := "d" }).1,
      r.resource_id ≠ "f1" :=
  ((claim_C10_canvas_resource_update_or_delete
      { id := "f1", file_state := "deleted", display_name := "d" }
      [{ resource_id := "f1", resource_type := "file", name := "n1" },
       { resource_id := "f2", resource_type := "file", name := "n2" }]).2
    (by decide)).1

/- ### C6: `update_term` appends exactly the new terms -/

theorem new_term_rows_eq_filter (w : List TermRow) (existing : List Int) :
    new_term_rows w existing = w.filter (fun r => r.id ∉ existing) := by
  unfold new_term_rows
  apply List.filter_congr
  intro r hr
  simp only [decide_eq_decide]
  unfold new_term_ids
  simp only [List.mem_filter, List.mem_map, decide_eq_true_eq]
  constructor
  · intro hmem
    exact hmem.2
  · intro hnot
    exact ⟨⟨r, hr, rfl⟩, hnot⟩

/-- C6: `update_term` inserts exactly those warehouse term rows whose id is
not already present in the operational store, never updates or deletes an
existing term row (its only write is a single append of exactly the new
rows), and returns successfully with no insert when the set difference is
empty. -/
theorem claim_C6_update_term_append_only (w : List TermRow)
    (existing : List Int) (oracle : List TermRow → Except String Unit) :
    (new_term_rows w existing = w.filter (fun r => r.id ∉ existing)) ∧
    ((∀ r ∈ w, r.id ∈ existing) → update_term w existing oracle = ([], .ok "")) ∧
    (oracle (new_term_rows w existing) = .ok () →
      update_term w existing oracle =
        if new_term_ids w existing = [] then ([], .ok "")
        else ([WriteOp.appendTerms (new_term_rows w existing)],
          .ok ("Added " ++ toString (new_term_rows w existing).length
            ++ " new records to academic_terms table: "
            ++ toString (new_term_ids w existing) ++ "\n"))) := by
  refine ⟨new_term_rows_eq_filter w existing, ?_, ?_⟩
  · intro hall
    have hempty : new_term_ids w existing = [] := by
      unfold new_term_ids
      rw [List.filter_eq_nil_iff]
      intro a ha
      rcases List.mem_map.mp ha with ⟨r, hr, rfl⟩
      simp only [decide_eq_true_eq, not_not]
      exact hall r hr
    simp [update_term, hempty]
  · intro hok
    by_cases hempty : new_term_ids w existing = []
    · simp [update_term, hempty]
    · rw [if_neg hempty]
      simp [update_term, hempty, hok]

/-- Witness for C6 at a concrete warehouse snapshot: one genuinely new term
is appended, an already-present one is not. -/
theorem claim_C6_witness :
    update_term
      [{ id := 55, canvas_id := 1055, name := "FA", date_start := some 1,
         date_end := some 2 },
       { id := 44, canvas_id := 1044, name := "WN", date_start := none,
         date_end := none }]
      [44] (fun _ => .ok ()) =
    if new_term_ids
        [{ id := 55, canvas_id := 1055, name := "FA", date_start := some 1,
           date_end := some 2 },
         { id := 44, canvas_id := 1044, name := "WN", date_start := none,
           date_end := none }] [44] = [] then ([], .ok "")
    else ([WriteOp.appendTerms (new_term_rows
        [{ id := 55, canvas_id := 1055, name := "FA", date_start := some 1,
           date_end := some 2 },
         { id := 44, canvas_id := 1044, name := "WN", date_start := none,
           date_end := none }] [44])],
      .ok ("Added " ++ toString (new_term_rows
          [{ id := 55, canvas_id := 1055, name := "FA", date_start := some 1,
             date_end := some 2 },
           { id := 44, canvas_id := 1044, name := "WN", date_start := none,
             date_end := none }] [44]).length
        ++ " new records to academic_terms table: "
        ++ toString (new_term_ids
          [{ id := 55, canvas_id := 1055, name := "FA", date_start := some 1,
             date_end := some 2 },
           { id := 44, canvas_id := 1044, name := "WN", date_start := none,
             date_end := none }] [44]) ++ "\n")) :=
  (claim_C6_update_term_append_only _ [44] (fun _ => .ok ())).2.2 rfl

/- ### C5: stable deduplication -/

theorem drop_duplicates_go_mem_map [DecidableEq κ] (key : α → κ)
    (l : List α) : ∀ (seen : List κ) (k : κ),
    (k ∈ (drop_duplicates_go key seen l).map key ↔
      k ∈ l.map key ∧ k ∉ seen) := by
  induction l with
  | nil => intro seen k; simp [drop_duplicates_go]
  | cons r rest ih =>
    intro seen k
    simp only [drop_duplicates_go]
    by_cases h : key r ∈ seen
    · rw [if_pos h, ih seen k]
      simp only [List.map_cons, List.mem_cons]
      constructor
      · rintro ⟨hk, hns⟩
        exact ⟨Or.inr hk, hns⟩
      · rintro ⟨hk | hk, hns⟩
        · exact absurd (hk ▸ h) hns
        · exact ⟨hk, hns⟩
    · rw [if_neg h]
      simp only [List.map_cons, List.mem_cons]
      rw [ih (key r :: seen) k]
      simp only [List.mem_cons]
      constructor
      · rintro (hk | ⟨hk, hns⟩)
        · exact ⟨Or.inl hk, hk ▸ h⟩
        · exact ⟨Or.inr hk, fun hs => hns (Or.inr hs)⟩
      · rintro ⟨hk | hk, hns⟩
        · exact Or.inl hk
        · by_cases hkr : k = key r
          · exact Or.inl hkr
          · exact Or.inr ⟨hk, fun hs =>
              hs.elim (fun h1 => hkr h1) (fun h2 => hns h2)⟩

theorem drop_duplicates_go_nodup [DecidableEq κ] (key : α → κ)
    (l : List α) : ∀ (seen : List κ),
    ((drop_duplicates_go key seen l).map key).Nodup := by
  induction l with
  | nil => intro seen; simp [drop_duplicates_go]
  | cons r rest ih =>
    intro seen
    simp only [drop_duplicates_go]
    by_cases h : key r ∈ seen
    · rw [if_pos h]; exact ih seen
    · rw [if_neg h]
      simp only [List.map_cons, List.nodup_cons]
      refine ⟨?_, ih (key r :: seen)⟩
      intro hmem
      exact ((drop_duplicates_go_mem_map key rest (key r :: seen)
        (key r)).mp hmem).2 (List.mem_cons_self _ _)

theorem drop_duplicates_go_find [DecidableEq κ] (key : α → κ)
    (l : List α) : ∀ (seen : List κ) (k : κ), k ∉ seen →
    (drop_duplicates_go key seen l).find? (fun r => decide (key r = k)) =
      l.find? (fun r => decide (key r = k)) := by
  induction l with
  | nil => intro seen k _; simp [drop_duplicates_go]
  | cons r rest ih =>
    intro seen k hk
    simp only [drop_duplicates_go]
    by_cases h : key r ∈ seen
    · rw [if_pos h, ih seen k hk]
      have hne : decide (key r = k) = false := by
        simp only [decide_eq_false_iff_not]
        intro heq
        exact hk (heq ▸ h)
      simp [List.find?_cons, hne]
    · rw [if_neg h]
      by_cases heq : key r = k
      · have hd : decide (key r = k) = true := decide_eq_true heq
        simp [List.find?_cons, hd]
      · have hd : decide (key r = k) = false := decide_eq_false heq
        simp only [List.find?_cons, hd, Bool.false_eq_true, if_false]
        refine ih (key r :: seen) k ?_
        intro hmem
        rcases List.mem_cons.mp hmem with h1 | h2
        · exact heq h1.symm
        · exact hk h2

theorem drop_duplicates_length [DecidableEq κ] (key : α → κ) (l : List α) :
    (drop_duplicates key l).length = (l.map key).dedup.length := by
  have h1 : ((drop_duplicates key l).map key).Nodup :=
    drop_duplicates_go_nodup key l []
  have hperm :
      List.Perm ((drop_duplicates key l).map key) ((l.map key).dedup) := by
    apply List.perm_of_nodup_nodup_toFinset_eq h1 (l.map key).nodup_dedup
    ext k
    simp only [List.mem_toFinset, List.mem_dedup]
    rw [drop_duplicates]
    rw [drop_duplicates_go_mem_map key l [] k]
    simp
  have hlen : (drop_duplicates key l).length
      = ((drop_duplicates key l).map key).length :=
    (List.length_map _ _).symm
  rw [hlen]
  exact hperm.length_eq

/-- C5: deduplication (as used whole-row in `util_function` and on the
`(resource_id, user_id, access_time)` triple in `update_resource_access`)
is stable: out of `N` input rows of which `M` are exact duplicates on the
dedupe key (`M = N − #distinct keys`), exactly `N − M` rows survive, each
key survives exactly once, and for every key the surviving row is the
first-seen occurrence in the input. -/
theorem claim_C5_dedupe_stable [DecidableEq κ] (key : α → κ) (l : List α) :
    (drop_duplicates key l).length
      = l.length - (l.length - (l.map key).dedup.length) ∧
    ((drop_duplicates key l).map key).Nodup ∧
    (∀ k ∈ l.map key,
      (drop_duplicates key l).find? (fun r => decide (key r = k)) =
        l.find? (fun r => decide (key r = k))) := by
  refine ⟨?_, drop_duplicates_go_nodup key l [], ?_⟩
  · rw [drop_duplicates_length key l]
    have hle : (l.map key).dedup.length ≤ l.length := by
      calc (l.map key).dedup.length ≤ (l.map key).length :=
            (l.map key).dedup_sublist.length_le
        _ = l.length := List.length_map _ _
    omega
  · intro k _
    exact drop_duplicates_go_find key l [] k (List.not_mem_nil k)

/-- Witness for C5: five rows, two duplicates on the key — three survive,
and the survivor of the duplicated key is the first occurrence. -/
theorem claim_C5_witness :
    (drop_duplicates (fun p : Int × Int => p.1) [(1, 10), (2, 20), (1, 30),
        (3, 40), (2, 50)]).length = 5 - (5 - 3) ∧
    (drop_duplicates (fun p : Int × Int => p.1) [(1, 10), (2, 20), (1, 30),
        (3, 40), (2, 50)]).find? (fun r => decide (r.1 = 1)) =
      [(1, 10), (2, 20), (1, 30), (3, 40), (2, 50)].find?
        (fun r => decide (r.1 = 1)) := by
  have h := claim_C5_dedupe_stable (fun p : Int × Int => p.1)
    [(1, 10), (2, 20), (1, 30), (3, 40), (2, 50)]
  refine ⟨?_, h.2.2 1 (by decide)⟩
  have h1 := h.1
  simpa using h1

/- ### C4: the course field merger -/

theorem soft_update_preserves (c : Course) (f : CourseDateField)
    (v : Option Timestamp) :
    (soft_update_datetime_field c f v).1.id = c.id ∧
    (soft_update_datetime_field c f v).1.name = c.name ∧
    (soft_update_datetime_field c f v).1.term = c.term ∧
    (soft_update_datetime_field c f v).1.data_last_updated
      = c.data_last_updated := by
  cases f
  case date_start =>
    cases hds : c.date_start <;> cases v <;>
      simp [soft_update_datetime_field, Course.getDate, hds, Course.setDate]
  case date_end =>
    cases hds : c.date_end <;> cases v <;>
      simp [soft_update_datetime_field, Course.getDate, hds, Course.setDate]

theorem soft_update_start_of_date_end (c : Course) (v : Option Timestamp) :
    (soft_update_datetime_field c .date_end v).1.date_start = c.date_start := by
  cases hds : c.date_end <;> cases v <;>
    simp [soft_update_datetime_field, Course.getDate, hds, Course.setDate]

theorem soft_update_end_of_date_start (c : Course) (v : Option Timestamp) :
    (soft_update_datetime_field c .date_start v).1.date_end = c.date_end := by
  cases hds : c.date_start <;> cases v <;>
    simp [soft_update_datetime_field, Course.getDate, hds, Course.setDate]

theorem soft_update_of_some (c : Course) (f : CourseDateField)
    (v : Option Timestamp) (x : Timestamp) (h : c.getDate f = some x) :
    soft_update_datetime_field c f v = (c, []) := by
  simp [soft_update_datetime_field, h]

theorem soft_update_nil (c : Course) (f : CourseDateField)
    (v : Option Timestamp) (h : (soft_update_datetime_field c f v).2 = []) :
    (soft_update_datetime_field c f v).1 = c := by
  cases hg : c.getDate f
  · cases v
    · simp [soft_update_datetime_field, hg]
    · simp [soft_update_datetime_field, hg] at h
  · simp [soft_update_datetime_field, hg]

theorem soft_update_nonnil (c : Course) (f : CourseDateField)
    (v : Option Timestamp) (h : (soft_update_datetime_field c f v).2 ≠ []) :
    c.getDate f = none ∧ ∃ x, v = some x ∧
      soft_update_datetime_field c f v = (c.setDate f x, [f.fieldName]) := by
  cases hg : c.getDate f
  · cases hv : v
    · exact absurd (by simp [soft_update_datetime_field, hg, hv]) h
    · exact ⟨rfl, _, rfl, by simp [soft_update_datetime_field, hg, hv]⟩
  · exact absurd (by simp [soft_update_datetime_field, hg]) h

theorem course_name_merged_name (w : CourseRow) (c : Course) :
    (course_name_merged w c).name = w.name := by
  unfold course_name_merged
  split
  · rfl
  · rename_i h
    exact not_not.mp h

theorem course_name_merged_rest (w : CourseRow) (c : Course) :
    (course_name_merged w c).id = c.id ∧
    (course_name_merged w c).term = c.term ∧
    (course_name_merged w c).date_start = c.date_start ∧
    (course_name_merged w c).date_end = c.date_end ∧
    (course_name_merged w c).data_last_updated = c.data_last_updated := by
  unfold course_name_merged
  split <;> simp

theorem course_term_merged_rest (w : CourseRow) (tn : Bool) (c1 : Course) :
    (course_term_merged w tn c1).id = c1.id ∧
    (course_term_merged w tn c1).name = c1.name ∧
    (course_term_merged w tn c1).date_start = c1.date_start ∧
    (course_term_merged w tn c1).date_end = c1.date_end ∧
    (course_term_merged w tn c1).data_last_updated
      = c1.data_last_updated := by
  unfold course_term_merged
  split <;> simp

theorem course_term_merged_term (w : CourseRow) (c : Course) (c1 : Course)
    (h1 : c1.term = c.term) :
    (course_term_merged w (term_needs_update w c) c1).term
      = some w.enrollment_term_id := by
  unfold course_term_merged
  split
  · rfl
  · rename_i h
    rw [h1]
    unfold term_needs_update at h
    cases hc : c.term with
    | none => rw [hc] at h; exact absurd rfl h
    | some t =>
      rw [hc] at h
      have ht : t = w.enrollment_term_id := by
        by_contra hne
        exact h (bne_iff_ne.mpr hne)
      rw [ht]

theorem term_needs_update_true (w : CourseRow) (c : Course)
    (h : term_needs_update w c = true) :
    c.term ≠ some w.enrollment_term_id := by
  unfold term_needs_update at h
  cases hc : c.term with
  | none => simp
  | some t =>
    rw [hc] at h
    simpa using h

theorem course_merged_c2_dates (w : CourseRow) (c : Course) :
    (course_merged_c2 w c).date_start = c.date_start ∧
    (course_merged_c2 w c).date_end = c.date_end ∧
    (course_merged_c2 w c).id = c.id ∧
    (course_merged_c2 w c).data_last_updated = c.data_last_updated := by
  unfold course_merged_c2
  refine ⟨?_, ?_, ?_, ?_⟩
  · rw [(course_term_merged_rest _ _ _).2.2.1,
      (course_name_merged_rest _ _).2.2.1]
  · rw [(course_term_merged_rest _ _ _).2.2.2.1,
      (course_name_merged_rest _ _).2.2.2.1]
  · rw [(course_term_merged_rest _ _ _).1, (course_name_merged_rest _ _).1]
  · rw [(course_term_merged_rest _ _ _).2.2.2.2,
      (course_name_merged_rest _ _).2.2.2.2]

theorem course_merged_name (w : CourseRow) (c : Course) :
    (course_merged w c).name = w.name := by
  unfold course_merged course_merged_s4
  rw [(soft_update_preserves _ _ _).2.1]
  unfold course_merged_s3
  rw [(soft_update_preserves _ _ _).2.1]
  unfold course_merged_c2
  rw [(course_term_merged_rest _ _ _).2.1]
  exact course_name_merged_name w c

theorem course_merged_term (w : CourseRow) (c : Course) :
    (course_merged w c).term = some w.enrollment_term_id := by
  unfold course_merged course_merged_s4
  rw [(soft_update_preserves _ _ _).2.2.1]
  unfold course_merged_s3
  rw [(soft_update_preserves _ _ _).2.2.1]
  unfold course_merged_c2
  exact course_term_merged_term w c _ (course_name_merged_rest w c).2.1

theorem course_merged_id_dlu (w : CourseRow) (c : Course) :
    (course_merged w c).id = c.id ∧
    (course_merged w c).data_last_updated = c.data_last_updated := by
  unfold course_merged course_merged_s4
  constructor
  · rw [(soft_update_preserves _ _ _).1]
    unfold course_merged_s3
    rw [(soft_update_preserves _ _ _).1]
    exact (course_merged_c2_dates w c).2.2.1
  · rw [(soft_update_preserves _ _ _).2.2.2]
    unfold course_merged_s3
    rw [(soft_update_preserves _ _ _).2.2.2]
    exact (course_merged_c2_dates w c).2.2.2

theorem course_merged_date_start_some (w : CourseRow) (c : Course)
    (v : Timestamp) (h : c.date_start = some v) :
    (course_merged w c).date_start = some v := by
  have h2 : (course_merged_c2 w c).date_start = some v := by
    rw [(course_merged_c2_dates w c).1]; exact h
  have h3 : course_merged_s3 w c = (course_merged_c2 w c, []) := by
    unfold course_merged_s3
    exact soft_update_of_some _ _ _ v h2
  unfold course_merged course_merged_s4
  rw [soft_update_start_of_date_end, h3]
  exact h2

theorem course_merged_date_end_some (w : CourseRow) (c : Course)
    (v : Timestamp) (h : c.date_end = some v) :
    (course_merged w c).date_end = some v := by
  have h3 : (course_merged_s3 w c).1.date_end = some v := by
    unfold course_merged_s3
    rw [soft_update_end_of_date_start]
    rw [(course_merged_c2_dates w c).2.1]
    exact h
  unfold course_merged course_merged_s4
  rw [soft_update_of_some _ .date_end _ v (by simpa [Course.getDate] using h3)]
  exact h3

theorem course_merged_fields_nil (w : CourseRow) (c : Course)
    (h : course_merged_fields w c = []) : course_merged w c = c := by
  unfold course_merged_fields at h
  rcases List.append_eq_nil.mp h with ⟨habc, hd⟩
  rcases List.append_eq_nil.mp habc with ⟨hab, hc3⟩
  rcases List.append_eq_nil.mp hab with ⟨ha, hb⟩
  have hname : course_name_merged w c = c := by
    by_cases hn : c.name ≠ w.name
    · unfold course_name_fields at ha
      rw [if_pos hn] at ha
      exact absurd ha (by simp)
    · unfold course_name_merged
      rw [if_neg hn]
  have htn : ¬term_needs_update w c = true := by
    intro ht
    rw [if_pos ht] at hb
    exact absurd hb (by simp)
  have hterm : course_merged_c2 w c = c := by
    unfold course_merged_c2 course_term_merged
    rw [if_neg htn, hname]
  have hs3 : (course_merged_s3 w c).1 = c := by
    unfold course_merged_s3 at hc3 ⊢
    rw [soft_update_nil _ _ _ hc3, hterm]
  have hs4 : course_merged w c = (course_merged_s3 w c).1 := by
    unfold course_merged_s4 at hd
    unfold course_merged course_merged_s4
    exact soft_update_nil _ _ _ hd
  rw [hs4, hs3]

theorem course_merged_ne_of_fields (w : CourseRow) (c : Course)
    (h : course_merged_fields w c ≠ []) : course_merged w c ≠ c := by
  by_cases ha : course_name_fields w c = []
  · by_cases hb : term_needs_update w c = true
    · intro heq
      have hterm : (course_merged w c).term = c.term := by rw [heq]
      rw [course_merged_term] at hterm
      exact term_needs_update_true w c hb hterm.symm
    · by_cases hc3 : (course_merged_s3 w c).2 = []
      · have hd : (course_merged_s4 w c).2 ≠ [] := by
          intro hdnil
          apply h
          unfold course_merged_fields
          rw [ha, if_neg hb, hc3, hdnil]
          rfl
        unfold course_merged_s4 at hd
        obtain ⟨hgd, x, hx, heqq⟩ := soft_update_nonnil _ _ _ hd
        have hcend : c.date_end = none := by
          have h1 : (course_merged_s3 w c).1.date_end
              = (course_merged_c2 w c).date_end := by
            unfold course_merged_s3
            exact soft_update_end_of_date_start _ _
          have h2 : (course_merged_s3 w c).1.date_end = none := by
            simpa [Course.getDate] using hgd
          rw [h1, (course_merged_c2_dates w c).2.1] at h2
          exact h2
        have hm : (course_merged w c).date_end = some x := by
          unfold course_merged course_merged_s4
          rw [heqq]
          simp [Course.setDate]
        intro heq
        rw [heq, hcend] at hm
        exact Option.noConfusion hm
      · have hc3' : (soft_update_datetime_field (course_merged_c2 w c)
            .date_start w.start_at).2 ≠ [] := by
          unfold course_merged_s3 at hc3
          exact hc3
        obtain ⟨hgd, x, hx, heqq⟩ := soft_update_nonnil _ _ _ hc3'
        have hcstart : c.date_start = none := by
          have hg : (course_merged_c2 w c).date_start = none := by
            simpa [Course.getDate] using hgd
          rw [(course_merged_c2_dates w c).1] at hg
          exact hg
        have hm : (course_merged w c).date_start = some x := by
          unfold course_merged course_merged_s4
          rw [soft_update_start_of_date_end]
          unfold course_merged_s3
          rw [heqq]
          simp [Course.setDate]
        intro heq
        rw [heq, hcstart] at hm
        exact Option.noConfusion hm
  · have hn : c.name ≠ w.name := by
      by_contra hnn
      exact ha (by unfold course_name_fields; rw [if_neg (not_not_intro hnn)])
    intro heq
    have hna : (course_merged w c).name = c.name := by rw [heq]
    rw [course_merged_name] at hna
    exact hn hna.symm

theorem course_merged_fields_nil_iff (w : CourseRow) (c : Course) :
    course_merged_fields w c = [] ↔ course_merged w c = c := by
  constructor
  · exact course_merged_fields_nil w c
  · intro he
    by_contra hne
    exact course_merged_ne_of_fields w c hne he

/-- C4: for every course processed by `update_course` (with
`soft_update_datetime_field`), a non-null stored `date_start`/`date_end` is
never overwritten by a warehouse value; `name` and the term reference always
end up at the warehouse value (so they are overwritten whenever they
differ); and `save()` is called — a `courseSave` write is emitted by the
loop — exactly when `updated_fields` is non-empty, which happens exactly
when some field actually changed. -/
theorem claim_C4_course_soft_merge (w : CourseRow) (term_ids : List Int)
    (c c' : Course) (fields : List String)
    (h : update_course_row w term_ids c = .ok (c', fields)) :
    (∀ v, c.date_start = some v → c'.date_start = some v) ∧
    (∀ v, c.date_end = some v → c'.date_end = some v) ∧
    c'.name = w.name ∧
    c'.term = some w.enrollment_term_id ∧
    (fields ≠ [] ↔ c' ≠ c) ∧
    (w.id = c.id →
      (update_course_loop [w] term_ids [c]).1
        = if fields = [] then [] else [WriteOp.courseSave c']) := by
  have hcall := h
  unfold update_course_row at h
  split at h
  · exact absurd h (by simp)
  · rw [Except.ok.injEq, Prod.mk.injEq] at h
    obtain ⟨hc', hf⟩ := h
    subst hc'
    subst hf
    refine ⟨?_, ?_, course_merged_name w c, course_merged_term w c, ?_, ?_⟩
    · intro v hv
      exact course_merged_date_start_some w c v hv
    · intro v hv
      exact course_merged_date_end_some w c v hv
    · exact not_iff_not.mpr (course_merged_fields_nil_iff w c)
    · intro hw
      simp only [update_course_loop]
      have hfil : List.filter (fun r => decide (r.id = c.id)) [w] = [w] := by
        simp [hw]
      rw [hfil]
      simp only [List.head?]
      rw [hcall]
      simp only [update_course_loop]
      by_cases hfe : course_merged_fields w c = []
      · simp [hfe]
      · simp [hfe]

/-- Witness for C4 at a concrete course and warehouse row: the already-set
`date_end` survives, and the loop emits exactly one save (fields did
change). -/
theorem claim_C4_witness :
    ({ id := 5, name := "new", term := some 55, date_start := some 10,
       date_end := some 99, data_last_updated := some 50 } : Course).date_end
      = some 99 ∧
    (update_course_loop
      [{ id := 5, canvas_id := 105, enrollment_term_id := 55, name := "new",
         start_at := some 10, conclude_at := none }] [55]
      [{ id := 5, name := "old", term := none, date_start := none,
         date_end := some 99, data_last_updated := some 50 }]).1
      = if (["name", "term", "date_start"] : List String) = [] then []
        else [WriteOp.courseSave
          { id := 5, name := "new", term := some 55, date_start := some 10,
            date_end := some 99, data_last_updated := some 50 }] := by
  have h := claim_C4_course_soft_merge
    { id := 5, canvas_id := 105, enrollment_term_id := 55, name := "new",
      start_at := some 10, conclude_at := none } [55]
    { id := 5, name := "old", term := none, date_start := none,
      date_end := some 99, data_last_updated := some 50 }
    { id := 5, name := "new", term := some 55, date_start := some 10,
      date_end := some 99, data_last_updated := some 50 }
    ["name", "term", "date_start"] rfl
  exact ⟨h.2.1 99 rfl, h.2.2.2.2.2 rfl⟩

/- ### C8: identity resolution -/

theorem ra_merge_row_mem (udf : List UserRec) (r : RARow)
    (p : RARow × Option Int) (hp : p ∈ ra_merge_row udf r) :
    p.1 = r ∧ (p.2 = none ∨ ∃ u ∈ udf,
      r.user_login_name = some u.sis_name ∧ p.2 = some u.user_id) := by
  unfold ra_merge_row at hp
  cases hln : r.user_login_name with
  | none =>
    simp only [hln] at hp
    simp only [List.mem_singleton] at hp
    rw [hp]
    exact ⟨rfl, Or.inl rfl⟩
  | some ln =>
    simp only [hln] at hp
    cases hfil : udf.filter (fun u => decide (u.sis_name = ln)) with
    | nil =>
      simp only [hfil] at hp
      simp only [List.mem_singleton] at hp
      rw [hp]
      exact ⟨rfl, Or.inl rfl⟩
    | cons m ms =>
      simp only [hfil] at hp
      rcases List.mem_map.mp hp with ⟨u, hu, rfl⟩
      have hu' : u ∈ udf.filter (fun u => decide (u.sis_name = ln)) := by
        rw [hfil]; exact hu
      have hmem := List.mem_filter.mp hu'
      refine ⟨rfl, Or.inr ⟨u, hmem.1, ?_, rfl⟩⟩
      simp [hln, of_decide_eq_true hmem.2]

theorem ra_merge_row_intro (udf : List UserRec) (r : RARow) (u : UserRec)
    (hu : u ∈ udf) (hln : r.user_login_name = some u.sis_name) :
    (r, some u.user_id) ∈ ra_merge_row udf r := by
  unfold ra_merge_row
  simp only [hln]
  have humem : u ∈ udf.filter (fun x => decide (x.sis_name = u.sis_name)) :=
    List.mem_filter.mpr ⟨hu, by simp⟩
  cases hfil : udf.filter (fun x => decide (x.sis_name = u.sis_name)) with
  | nil =>
    rw [hfil] at humem
    exact absurd humem (List.not_mem_nil u)
  | cons m ms =>
    rw [hfil] at humem
    simp only [hfil]
    exact List.mem_map.mpr ⟨u, humem, rfl⟩

theorem ra_user_id_df_sub (user_table : List UserRec) (df : List RARow) :
    ∀ u ∈ ra_user_id_df user_table df, u ∈ user_table := by
  intro u hu
  exact (List.mem_filter.mp hu).1

theorem ra_user_id_df_intro (user_table : List UserRec) (df : List RARow)
    (u : UserRec) (hu : u ∈ user_table) (r : RARow) (hr : r ∈ df)
    (hln : r.user_login_name = some u.sis_name) :
    u ∈ ra_user_id_df user_table df := by
  refine List.mem_filter.mpr ⟨hu, ?_⟩
  simp only [decide_eq_true_eq]
  unfold ra_login_names
  rw [List.mem_dedup]
  exact List.mem_filterMap.mpr ⟨r, hr, hln⟩

/-- C8: in the identity-resolution step of `update_resource_access` (the
branch for a batch whose frame has a `user_login_name` column and at least
one sentinel user id −1, under operational user ids never being the
sentinel): every surviving row has a real user id (neither `NaN` nor −1);
every surviving row originates from an input row, with the sentinel
replaced by the id of a user whose `sis_name` matches the row's login name
and with non-sentinel ids untouched; and a sentinel row whose login name
matches a stored user survives with exactly that user's id (helper columns
dropped — the output shape has no `user_login_name`).  The step is a total
function: no exception propagates, unresolved rows are simply dropped. -/
theorem claim_C8_identity_resolution (user_table : List UserRec)
    (df : List RARow) (hpos : ∀ u ∈ user_table, u.user_id ≠ -1) :
    (∀ r' ∈ resolve_user_ids user_table df,
      r'.user_id ≠ none ∧ r'.user_id ≠ some (-1)) ∧
    (∀ r' ∈ resolve_user_ids user_table df, ∃ r ∈ df,
      r'.resource_id = r.resource_id ∧ r'.resource_type = r.resource_type ∧
      r'.name = r.name ∧ r'.access_time = r.access_time ∧
      ((r.user_id = some (-1) ∧ ∃ u ∈ user_table,
          r.user_login_name = some u.sis_name ∧
          r'.user_id = some u.user_id) ∨
        (r.user_id ≠ some (-1) ∧ r'.user_id = r.user_id))) ∧
    (∀ r ∈ df, r.user_id = some (-1) →
      ∀ u ∈ user_table, r.user_login_name = some u.sis_name →
      RARowCore.hasNA { r.core with user_id := some u.user_id } = false →
      { r.core with user_id := some u.user_id }
        ∈ resolve_user_ids user_table df) := by
  have main : ∀ r' ∈ resolve_user_ids user_table df,
      (r'.user_id ≠ none ∧ r'.user_id ≠ some (-1)) ∧ ∃ r ∈ df,
      r'.resource_id = r.resource_id ∧ r'.resource_type = r.resource_type ∧
      r'.name = r.name ∧ r'.access_time = r.access_time ∧
      ((r.user_id = some (-1) ∧ ∃ u ∈ user_table,
          r.user_login_name = some u.sis_name ∧
          r'.user_id = some u.user_id) ∨
        (r.user_id ≠ some (-1) ∧ r'.user_id = r.user_id)) := by
    intro r' hr'
    unfold resolve_user_ids at hr'
    have hstep := List.mem_filter.mp hr'
    have hna : r'.hasNA = false := by
      have := hstep.2
      simpa using this
    rcases List.mem_map.mp hstep.1 with ⟨a, ha, rfl⟩
    rcases List.mem_map.mp ha with ⟨p, hpmem, rfl⟩
    rcases List.mem_flatMap.mp hpmem with ⟨r, hr, hp⟩
    obtain ⟨hp1, hp2⟩ := ra_merge_row_mem _ r p hp
    have huid_ne : (ra_replace p).core.user_id ≠ none := by
      intro hnone
      unfold RARowCore.hasNA at hna
      rw [hnone] at hna
      simp at hna
    refine ⟨⟨huid_ne, ?_⟩, r, hr, ?_, ?_, ?_, ?_, ?_⟩
    case _ =>
      -- user_id is never the sentinel in the output
      unfold ra_replace at huid_ne ⊢
      by_cases hs : p.1.user_id = some (-1)
      · rw [if_pos hs] at huid_ne ⊢
        rcases hp2 with h2 | ⟨u, hu, _, h2⟩
        · exact absurd (by simp [RARow.core, h2]) huid_ne
        · simp only [RARow.core, h2]
          intro hcontra
          have : u.user_id = -1 := by
            simpa using hcontra
          exact hpos u (ra_user_id_df_sub user_table df u hu) this
      · rw [if_neg hs] at huid_ne ⊢
        simpa [RARow.core] using hs
    case _ => unfold ra_replace; split <;> simp [RARow.core, hp1]
    case _ => unfold ra_replace; split <;> simp [RARow.core, hp1]
    case _ => unfold ra_replace; split <;> simp [RARow.core, hp1]
    case _ => unfold ra_replace; split <;> simp [RARow.core, hp1]
    case _ =>
      unfold ra_replace
      by_cases hs : p.1.user_id = some (-1)
      · left
        refine ⟨hp1 ▸ hs, ?_⟩
        rcases hp2 with h2 | ⟨u, hu, hlnu, h2⟩
        · exfalso
          apply huid_ne
          unfold ra_replace
          rw [if_pos hs]
          simp [RARow.core, h2]
        · refine ⟨u, ra_user_id_df_sub user_table df u hu, hp1 ▸ hlnu, ?_⟩
          rw [if_pos hs]
          simp [RARow.core, h2]
      · right
        refine ⟨hp1 ▸ hs, ?_⟩
        rw [if_neg hs]
        simp [RARow.core, hp1]
  refine ⟨fun r' hr' => (main r' hr').1, fun r' hr' => (main r' hr').2, ?_⟩
  intro r hr hs u hu hln hna
  unfold resolve_user_ids
  refine List.mem_filter.mpr ⟨?_, by simpa using hna⟩
  refine List.mem_map.mpr ⟨ra_replace (r, some u.user_id), ?_, ?_⟩
  · refine List.mem_map.mpr ⟨(r, some u.user_id), ?_, rfl⟩
    refine List.mem_flatMap.mpr ⟨r, hr, ?_⟩
    exact ra_merge_row_intro _ r u
      (ra_user_id_df_intro user_table df u hu r hr hln) hln
  · unfold ra_replace
    rw [if_pos hs]
    simp [RARow.core]

/-- Witness for C8 at a concrete batch: one sentinel row resolves via login
name `"xyz"` (surviving with the stored user id 42); the spec's `"abc"`
scenario row has no matching user and is absent from the result. -/
theorem claim_C8_witness :
    ({ resource_id := some "f1", resource_type := some "file",
       name := some "n", user_id := some 42, access_time := some 7 }
      : RARowCore) ∈ resolve_user_ids
        [{ sis_name := "xyz", user_id := 42 }]
        [{ resource_id := some "f1", resource_type := some "file",
           name := some "n", user_id := some (-1),
           user_login_name := some "xyz", access_time := some 7 },
         { resource_id := some "f2", resource_type := some "file",
           name := some "n2", user_id := some (-1),
           user_login_name := some "abc", access_time := some 8 }] :=
  (claim_C8_identity_resolution [{ sis_name := "xyz", user_id := 42 }]
    [{ resource_id := some "f1", resource_type := some "file",
       name := some "n", user_id := some (-1),
       user_login_name := some "xyz", access_time := some 7 },
     { resource_id := some "f2", resource_type := some "file",
       name := some "n2", user_id := some (-1),
       user_login_name := some "abc", access_time := some 8 }]
    (by decide)).2.2
    { resource_id := some "f1", resource_type := some "file",
      name := some "n", user_id := some (-1),
      user_login_name := some "xyz", access_time := some 7 }
    (by decide) rfl { sis_name := "xyz", user_id := 42 } (by decide) rfl
    (by decide)

/- ### Lemmas about the write traces of the stages of `do`
(feeding C1: no stage other than line 803 touches `data_last_updated`) -/

/-- A write operation that does not touch any course's `data_last_updated`:
it is not the watermark write, and if it is a `course.save()` it stores the
`data_last_updated` value the course carried when loaded from the course
table. -/
def benign (table : List Course) (op : WriteOp) : Prop :=
  isWatermarkOp op = false ∧
  ∀ c, op = WriteOp.courseSave c →
    ∃ c0 ∈ table, c0.id = c.id ∧ c.data_last_updated = c0.data_last_updated

theorem benign_filter_nil (tbl : List Course) (l : List WriteOp)
    (h : ∀ op ∈ l, benign tbl op) : l.filter isWatermarkOp = [] := by
  rw [List.filter_eq_nil_iff]
  intro op hop
  simp [(h op hop).1]

theorem benign_append (tbl : List Course) (l1 l2 : List WriteOp)
    (h1 : ∀ op ∈ l1, benign tbl op) (h2 : ∀ op ∈ l2, benign tbl op) :
    ∀ op ∈ l1 ++ l2, benign tbl op := by
  intro op hop
  rcases List.mem_append.mp hop with h | h
  · exact h1 op h
  · exact h2 op h

theorem benign_not_save (tbl : List Course) (op : WriteOp)
    (hwm : isWatermarkOp op = false)
    (hns : ∀ c, op ≠ WriteOp.courseSave c) : benign tbl op :=
  ⟨hwm, fun c hc => absurd hc (hns c)⟩

theorem benign_util_function (tbl : List Course) (cid : Option Int) (df : Df)
    (t : String) (tid : Option String)
    (to_sql : String → Df → Except String Unit) :
    ∀ op ∈ (util_function cid df t tid to_sql).1, benign tbl op := by
  intro op hop
  simp only [util_function] at hop
  split at hop
  · simp at hop
  · simp only [List.mem_singleton] at hop
    rw [hop]
    exact benign_not_save tbl _ rfl (fun c hc => WriteOp.noConfusion hc)

theorem benign_run_course_loop (tbl : List Course) (t : String)
    (tid : Option String) (to_sql : String → Df → Except String Unit)
    (dfs : Int → Df) : ∀ (ids : List Int),
    ∀ op ∈ (run_course_loop t tid to_sql dfs ids).1, benign tbl op := by
  intro ids
  induction ids with
  | nil => intro op hop; simp [run_course_loop] at hop
  | cons cid rest ih =>
    intro op hop
    simp only [run_course_loop] at hop
    split at hop
    · rename_i ops e heq
      have hops : ops = (util_function (some cid) (dfs cid) t tid to_sql).1 := by
        rw [heq]
      exact benign_util_function tbl _ _ _ _ _ op (hops ▸ hop)
    · rename_i ops st heq
      have hops : ops = (util_function (some cid) (dfs cid) t tid to_sql).1 := by
        rw [heq]
      split at hop
      · rename_i ops2 e2 heq2
        have hops2 : ops2 = (run_course_loop t tid to_sql dfs rest).1 := by
          rw [heq2]
        refine benign_append tbl ops ops2 ?_ ?_ op hop
        · intro o ho; exact benign_util_function tbl _ _ _ _ _ o (hops ▸ ho)
        · intro o ho; exact ih o (hops2 ▸ ho)
      · rename_i ops2 st2 heq2
        have hops2 : ops2 = (run_course_loop t tid to_sql dfs rest).1 := by
          rw [heq2]
        refine benign_append tbl ops ops2 ?_ ?_ op hop
        · intro o ho; exact benign_util_function tbl _ _ _ _ _ o (hops ▸ ho)
        · intro o ho; exact ih o (hops2 ▸ ho)

theorem benign_full_refresh_stage (tbl : List Course) (t : String)
    (tid : Option String) (dfs : Int → Df)
    (to_sql : String → Df → Except String Unit) (dc : String → Nat)
    (ids : List Int) :
    ∀ op ∈ (full_refresh_stage t tid dfs to_sql dc ids).1, benign tbl op := by
  intro op hop
  simp only [full_refresh_stage] at hop
  have hdel : benign tbl (WriteOp.deleteAll t "") :=
    benign_not_save tbl _ rfl (fun c hc => WriteOp.noConfusion hc)
  split at hop
  · rename_i ops e heq
    have hops : ops = (run_course_loop t tid to_sql dfs ids).1 := by rw [heq]
    rcases List.mem_cons.mp hop with h | h
    · rw [h]; exact hdel
    · exact benign_run_course_loop tbl t tid to_sql dfs ids op (hops ▸ h)
  · rename_i ops st heq
    have hops : ops = (run_course_loop t tid to_sql dfs ids).1 := by rw [heq]
    rcases List.mem_cons.mp hop with h | h
    · rw [h]; exact hdel
    · exact benign_run_course_loop tbl t tid to_sql dfs ids op (hops ▸ h)

theorem benign_update_term (tbl : List Course) (w : List TermRow)
    (existing : List Int) (oracle : List TermRow → Except String Unit) :
    ∀ op ∈ (update_term w existing oracle).1, benign tbl op := by
  intro op hop
  simp only [update_term] at hop
  split at hop
  · simp at hop
  · split at hop
    · simp at hop
    · simp only [List.mem_singleton] at hop
      rw [hop]
      exact benign_not_save tbl _ rfl (fun c hc => WriteOp.noConfusion hc)

theorem update_course_row_ok_inv (w : CourseRow) (tids : List Int)
    (c c' : Course) (fields : List String)
    (h : update_course_row w tids c = .ok (c', fields)) :
    c' = course_merged w c ∧ fields = course_merged_fields w c := by
  unfold update_course_row at h
  split at h
  · exact absurd h (by simp)
  · rw [Except.ok.injEq, Prod.mk.injEq] at h
    exact ⟨h.1.symm, h.2.symm⟩

theorem benign_update_course_loop (tbl : List Course) (wdata : List CourseRow)
    (tids : List Int) : ∀ (courses : List Course),
    (∀ c ∈ courses, c ∈ tbl) →
    ∀ op ∈ (update_course_loop wdata tids courses).1, benign tbl op := by
  intro courses
  induction courses with
  | nil => intro _ op hop; simp [update_course_loop] at hop
  | cons course rest ih =>
    intro hsub op hop
    simp only [update_course_loop] at hop
    split at hop
    · simp at hop
    · rename_i row heq
      split at hop
      · simp at hop
      · rename_i c' fields hok
        split at hop
        · rename_i ops2 e2 heq2
          have hops2 : ops2 = (update_course_loop wdata tids rest).1 := by
            rw [heq2]
          refine benign_append tbl _ ops2 ?_ ?_ op hop
          · intro o ho
            split at ho
            · simp only [List.mem_singleton] at ho
              rw [ho]
              refine ⟨rfl, fun c hc => ?_⟩
              have hcc : c = c' := WriteOp.courseSave.inj hc.symm
              obtain ⟨hcm, _⟩ := update_course_row_ok_inv row tids course
                c' fields hok
              refine ⟨course, hsub course (List.mem_cons_self _ _), ?_, ?_⟩
              · rw [hcc, hcm, (course_merged_id_dlu row course).1]
              · rw [hcc, hcm, (course_merged_id_dlu row course).2]
            · simp at ho
          · intro o ho
            exact ih (fun c hc => hsub c (List.mem_cons_of_mem _ hc)) o
              (hops2 ▸ ho)
        · rename_i ops2 st2 heq2
          have hops2 : ops2 = (update_course_loop wdata tids rest).1 := by
            rw [heq2]
          refine benign_append tbl _ ops2 ?_ ?_ op hop
          · intro o ho
            split at ho
            · simp only [List.mem_singleton] at ho
              rw [ho]
              refine ⟨rfl, fun c hc => ?_⟩
              have hcc : c = c' := WriteOp.courseSave.inj hc.symm
              obtain ⟨hcm, _⟩ := update_course_row_ok_inv row tids course
                c' fields hok
              refine ⟨course, hsub course (List.mem_cons_self _ _), ?_, ?_⟩
              · rw [hcc, hcm, (course_merged_id_dlu row course).1]
              · rw [hcc, hcm, (course_merged_id_dlu row course).2]
            · simp at ho
          · intro o ho
            exact ih (fun c hc => hsub c (List.mem_cons_of_mem _ hc)) o
              (hops2 ▸ ho)

theorem benign_update_course (tbl : List Course) (wdata : List CourseRow)
    (tids : List Int) (courses : List Course) (valid : List Int)
    (hsub : ∀ c ∈ courses, c ∈ tbl) :
    ∀ op ∈ (update_course wdata tids courses valid).1, benign tbl op := by
  intro op hop
  simp only [update_course] at hop
  split at hop
  · rename_i ops e heq
    have hops : ops = (update_course_loop wdata tids courses).1 := by rw [heq]
    exact benign_update_course_loop tbl wdata tids courses hsub op (hops ▸ hop)
  · rename_i ops st heq
    have hops : ops = (update_course_loop wdata tids courses).1 := by rw [heq]
    exact benign_update_course_loop tbl wdata tids courses hsub op (hops ▸ hop)

theorem benign_process_ra_batch (tbl : List Course) (inp : CronInputs)
    (fq : String) (batch : List Int) :
    ∀ op ∈ (process_ra_batch inp fq batch).1, benign tbl op := by
  intro op hop
  simp only [process_ra_batch] at hop
  split at hop
  · simp at hop
  · split at hop
    · simp at hop
    · split at hop
      · simp at hop
      · split at hop
        · simp only [List.mem_singleton] at hop
          rw [hop]
          exact benign_not_save tbl _ rfl (fun c hc => WriteOp.noConfusion hc)
        · rcases List.mem_cons.mp hop with h | h
          · rw [h]
            exact benign_not_save tbl _ rfl
              (fun c hc => WriteOp.noConfusion hc)
          · simp only [List.mem_singleton] at h
            rw [h]
            exact benign_not_save tbl _ rfl
              (fun c hc => WriteOp.noConfusion hc)

theorem benign_ra_loop (tbl : List Course) (inp : CronInputs) (fq : String) :
    ∀ (batches : List (List Int)),
    ∀ op ∈ (ra_loop inp fq batches).1, benign tbl op := by
  intro batches
  induction batches with
  | nil => intro op hop; simp [ra_loop] at hop
  | cons b rest ih =>
    intro op hop
    simp only [ra_loop] at hop
    split at hop
    · rename_i ops e heq
      have hops : ops = (process_ra_batch inp fq b).1 := by rw [heq]
      exact benign_process_ra_batch tbl inp fq b op (hops ▸ hop)
    · rename_i ops line bytes1 heq
      have hops : ops = (process_ra_batch inp fq b).1 := by rw [heq]
      split at hop
      · rename_i ops2 e2 heq2
        have hops2 : ops2 = (ra_loop inp fq rest).1 := by rw [heq2]
        refine benign_append tbl ops ops2 ?_ ?_ op hop
        · intro o ho; exact benign_process_ra_batch tbl inp fq b o (hops ▸ ho)
        · intro o ho; exact ih o (hops2 ▸ ho)
      · rename_i ops2 lines bytes2 heq2
        have hops2 : ops2 = (ra_loop inp fq rest).1 := by rw [heq2]
        refine benign_append tbl ops ops2 ?_ ?_ op hop
        · intro o ho; exact benign_process_ra_batch tbl inp fq b o (hops ▸ ho)
        · intro o ho; exact ih o (hops2 ▸ ho)

theorem benign_update_resource_access (tbl : List Course) (inp : CronInputs)
    (valid : List Int) :
    ∀ op ∈ (update_resource_access inp valid).1, benign tbl op := by
  intro op hop
  simp only [update_resource_access] at hop
  have hdel : benign tbl
      (WriteOp.deleteAll "resource_access" "WHERE access_time > %s") :=
    benign_not_save tbl _ rfl (fun c hc => WriteOp.noConfusion hc)
  split at hop
  · rename_i ops e heq
    have hops : ops = (ra_loop inp
        (build_final_query inp.sett (get_data_earliest_date
          (inp.course_table.filter (fun c => c.id ∈ valid))))
        (split_list valid inp.sett.cron_bq_in_limit)).1 := by
      rw [heq]
    rcases List.mem_cons.mp hop with h | h
    · rw [h]; exact hdel
    · exact benign_ra_loop tbl inp _ _ op (hops ▸ h)
  · rename_i ops rs bytes1 heq
    have hops : ops = (ra_loop inp
        (build_final_query inp.sett (get_data_earliest_date
          (inp.course_table.filter (fun c => c.id ∈ valid))))
        (split_list valid inp.sett.cron_bq_in_limit)).1 := by
      rw [heq]
    rcases List.mem_cons.mp hop with h | h
    · rw [h]; exact hdel
    · exact benign_ra_loop tbl inp _ _ op (hops ▸ h)

theorem benign_update_canvas_resource (tbl : List Course)
    (fq : Except String (List FileRow)) :
    ∀ op ∈ (update_canvas_resource fq).1, benign tbl op := by
  intro op hop
  unfold update_canvas_resource at hop
  split at hop
  · simp at hop
  · rcases List.mem_map.mp hop with ⟨r, _, rfl⟩
    unfold update_canvas_resource_row
    split
    · exact benign_not_save tbl _ rfl (fun c hc => WriteOp.noConfusion hc)
    · exact benign_not_save tbl _ rfl (fun c hc => WriteOp.noConfusion hc)

theorem benign_resource_stage (tbl : List Course) (inp : CronInputs)
    (valid : List Int) :
    ∀ op ∈ (resource_stage inp valid).1, benign tbl op := by
  intro op hop
  unfold resource_stage at hop
  split at hop
  · simp at hop
  · split at hop
    · rename_i ops e heq
      have hops : ops = (update_resource_access inp valid).1 := by rw [heq]
      exact benign_update_resource_access tbl inp valid op (hops ▸ hop)
    · rename_i ops st heq
      have hops : ops = (update_resource_access inp valid).1 := by rw [heq]
      split at hop
      · rename_i ops2 e2 heq2
        have hops2 : ops2 = (update_canvas_resource inp.file_query).1 := by
          rw [heq2]
        refine benign_append tbl ops ops2 ?_ ?_ op hop
        · intro o ho
          exact benign_update_resource_access tbl inp valid o (hops ▸ ho)
        · intro o ho
          exact benign_update_canvas_resource tbl inp.file_query o (hops2 ▸ ho)
      · rename_i ops2 st2 heq2
        have hops2 : ops2 = (update_canvas_resource inp.file_query).1 := by
          rw [heq2]
        refine benign_append tbl ops ops2 ?_ ?_ op hop
        · intro o ho
          exact benign_update_resource_access tbl inp valid o (hops ▸ ho)
        · intro o ho
          exact benign_update_canvas_resource tbl inp.file_query o (hops2 ▸ ho)

theorem benign_update_unizin_metadata (tbl : List Course)
    (inp : CronInputs) :
    ∀ op ∈ (update_unizin_metadata inp).1, benign tbl op := by
  intro op hop
  simp only [update_unizin_metadata] at hop
  have hdel : benign tbl (WriteOp.deleteAll "unizin_metadata" "") :=
    benign_not_save tbl _ rfl (fun c hc => WriteOp.noConfusion hc)
  split at hop
  · rename_i ops e heq
    have hops : ops = (util_function none inp.metadata_df "unizin_metadata"
        none inp.to_sql).1 := by rw [heq]
    rcases List.mem_cons.mp hop with h | h
    · rw [h]; exact hdel
    · exact benign_util_function tbl _ _ _ _ _ op (hops ▸ h)
  · rename_i ops st heq
    have hops : ops = (util_function none inp.metadata_df "unizin_metadata"
        none inp.to_sql).1 := by rw [heq]
    rcases List.mem_cons.mp hop with h | h
    · rw [h]; exact hdel
    · exact benign_util_function tbl _ _ _ _ _ op (hops ▸ h)

theorem benign_course_stages (inp : CronInputs) (cdata : List CourseRow)
    (valid : List Int) (terms_after : List Int) :
    ∀ op ∈ (course_stages inp cdata valid terms_after).1,
      benign inp.course_table op := by
  have hsub : ∀ c ∈ inp.course_table.filter (fun c => c.id ∈ valid),
      c ∈ inp.course_table := fun c hc => (List.mem_filter.mp hc).1
  intro op hop
  simp only [course_stages] at hop
  split at hop
  · rename_i o1 e heq
    have ho1 : o1 = (update_course cdata terms_after
        (inp.course_table.filter (fun c => c.id ∈ valid)) valid).1 := by
      rw [heq]
    exact benign_update_course inp.course_table cdata terms_after _ valid hsub
      op (ho1 ▸ hop)
  · rename_i o1 st1 heq1
    have ho1 : o1 = (update_course cdata terms_after
        (inp.course_table.filter (fun c => c.id ∈ valid)) valid).1 := by
      rw [heq1]
    have hb1 : ∀ o ∈ o1, benign inp.course_table o := fun o ho =>
      benign_update_course inp.course_table cdata terms_after _ valid hsub o
        (ho1 ▸ ho)
    split at hop
    · rename_i o2 e heq2
      have ho2 : o2 = (update_user inp valid).1 := by rw [heq2]
      refine benign_append _ o1 o2 hb1 ?_ op hop
      intro o ho
      exact benign_full_refresh_stage _ _ _ _ _ _ _ o (ho2 ▸ ho)
    · rename_i o2 st2 heq2
      have ho2 : o2 = (update_user inp valid).1 := by rw [heq2]
      have hb2 : ∀ o ∈ o1 ++ o2, benign inp.course_table o := by
        refine benign_append _ o1 o2 hb1 ?_
        intro o ho
        exact benign_full_refresh_stage _ _ _ _ _ _ _ o (ho2 ▸ ho)
      split at hop
      · rename_i o3 e heq3
        have ho3 : o3 = (update_groups inp valid).1 := by rw [heq3]
        refine benign_append _ _ o3 hb2 ?_ op hop
        intro o ho
        exact benign_full_refresh_stage _ _ _ _ _ _ _ o (ho3 ▸ ho)
      · rename_i o3 st3 heq3
        have ho3 : o3 = (update_groups inp valid).1 := by rw [heq3]
        have hb3 : ∀ o ∈ o1 ++ o2 ++ o3, benign inp.course_table o := by
          refine benign_append _ _ o3 hb2 ?_
          intro o ho
          exact benign_full_refresh_stage _ _ _ _ _ _ _ o (ho3 ▸ ho)
        split at hop
        · rename_i o4 e heq4
          have ho4 : o4 = (update_assignment inp valid).1 := by rw [heq4]
          refine benign_append _ _ o4 hb3 ?_ op hop
          intro o ho
          exact benign_full_refresh_stage _ _ _ _ _ _ _ o (ho4 ▸ ho)
        · rename_i o4 st4 heq4
          have ho4 : o4 = (update_assignment inp valid).1 := by rw [heq4]
          have hb4 : ∀ o ∈ o1 ++ o2 ++ o3 ++ o4, benign inp.course_table o := by
            refine benign_append _ _ o4 hb3 ?_
            intro o ho
            exact benign_full_refresh_stage _ _ _ _ _ _ _ o (ho4 ▸ ho)
          split at hop
          · rename_i o5 e heq5
            have ho5 : o5 = (submission inp valid).1 := by rw [heq5]
            refine benign_append _ _ o5 hb4 ?_ op hop
            intro o ho
            exact benign_full_refresh_stage _ _ _ _ _ _ _ o (ho5 ▸ ho)
          · rename_i o5 st5 heq5
            have ho5 : o5 = (submission inp valid).1 := by rw [heq5]
            have hb5 : ∀ o ∈ o1 ++ o2 ++ o3 ++ o4 ++ o5,
                benign inp.course_table o := by
              refine benign_append _ _ o5 hb4 ?_
              intro o ho
              exact benign_full_refresh_stage _ _ _ _ _ _ _ o (ho5 ▸ ho)
            split at hop
            · rename_i o6 e heq6
              have ho6 : o6 = (weight_consideration inp valid).1 := by
                rw [heq6]
              refine benign_append _ _ o6 hb5 ?_ op hop
              intro o ho
              exact benign_full_refresh_stage _ _ _ _ _ _ _ o (ho6 ▸ ho)
            · rename_i o6 st6 heq6
              have ho6 : o6 = (weight_consideration inp valid).1 := by
                rw [heq6]
              have hb6 : ∀ o ∈ o1 ++ o2 ++ o3 ++ o4 ++ o5 ++ o6,
                  benign inp.course_table o := by
                refine benign_append _ _ o6 hb5 ?_
                intro o ho
                exact benign_full_refresh_stage _ _ _ _ _ _ _ o (ho6 ▸ ho)
              refine benign_append _ _ _ hb6 ?_ op hop
              intro o ho
              exact benign_resource_stage inp.course_table inp valid o ho

/-- On completion, the `exception_in_run` flag returned by the course-scoped
stages is exactly the flag of the guarded resource block. -/
theorem course_stages_flag (inp : CronInputs) (cdata : List CourseRow)
    (valid : List Int) (ta : List Int) (ops : List WriteOp) (stx : String)
    (exc : Bool)
    (h : course_stages inp cdata valid ta = (ops, .ok (stx, exc))) :
    exc = (resource_stage inp valid).2.2 := by
  simp only [course_stages] at h
  split at h
  · simp at h
  · split at h
    · simp at h
    · split at h
      · simp at h
      · split at h
        · simp at h
        · split at h
          · simp at h
          · split at h
            · simp at h
            · rw [Prod.mk.injEq, Except.ok.injEq, Prod.mk.injEq] at h
              exact h.2.2.symm

/- ### C2: invalid course ids abort the run with zero writes -/

theorem verify_course_ids_invalid_eq (supported : List Int)
    (q : Int → List CourseRow) :
    (verify_course_ids supported q).1
      = supported.filter (fun cid => q cid = []) := by
  induction supported with
  | nil => rfl
  | cons cid rest ih =>
    simp only [verify_course_ids]
    cases hq : q cid with
    | nil =>
      simp only [hq]
      simp [List.filter_cons, hq, ih]
    | cons a as =>
      simp only [hq]
      simp [List.filter_cons, hq, ih]

/-- C2: whenever at least one configured course id has no warehouse record,
`do` returns the error summary naming exactly the invalid ids (those whose
warehouse query came back empty) and performs zero writes to the
operational store — the trace is empty: no delete, append, update or
upsert runs. -/
theorem claim_C2_invalid_ids_abort (inp : CronInputs)
    (h : (verify_course_ids inp.supported_courses
      inp.warehouse_course_rows).1 ≠ []) :
    cron_do inp = ([], .ok
      ("Start cron: " ++ toString inp.run_start ++ " UTC\n"
        ++ "ERROR: Those course ids are invalid: "
        ++ toString (inp.supported_courses.filter
            (fun cid => inp.warehouse_course_rows cid = [])) ++ "\n"
        ++ ("End cron: " ++ toString inp.run_end ++ "\n"))) := by
  simp only [cron_do]
  rw [if_pos h, verify_course_ids_invalid_eq]

/-- A baseline input fixture: all external writes succeed, the event source
returns no rows, no views are disabled. -/
def baseFixture : CronInputs where
  run_start := 100
  run_end := 200
  sett := { lrs_is_bigquery := true, cron_bq_in_limit := 20,
            canvas_data_id_increment := 17700000000000000,
            resource_access_config := [], views_disabled := [],
            is_unizin := false }
  supported_courses := []
  supported_courses_after := []
  warehouse_course_rows := fun _ => []
  term_df := []
  academic_term_ids := []
  course_table := []
  user_df := fun _ => []
  groups_df := fun _ => []
  assignment_df := fun _ => []
  submission_df := fun _ => []
  weight_df := fun _ => []
  metadata_df := []
  user_table := []
  ra_query := fun _ _ _ =>
    .ok { has_user_login_name := true, rows := [], total_bytes_billed := 0 }
  file_query := .ok []
  to_sql := fun _ _ => .ok ()
  terms_to_sql := fun _ => .ok ()
  resource_upsert := fun _ => .ok ()
  ra_to_sql := fun _ => .ok ()
  delete_rowcount := fun _ => 0

/-- Inputs for the C2 witness: course 5 exists in the warehouse, course 7
does not. -/
def c2Fixture : CronInputs :=
  { baseFixture with
    supported_courses := [5, 7],
    warehouse_course_rows := fun cid =>
      if cid = 5 then
        [{ id := 5, canvas_id := 105, enrollment_term_id := 55,
           name := "c5", start_at := none, conclude_at := none }]
      else [] }

/-- Witness for C2: with invalid course id 7, the run writes nothing and
the summary names exactly `[7]`. -/
theorem claim_C2_witness :
    cron_do c2Fixture = ([], .ok
      ("Start cron: " ++ toString c2Fixture.run_start ++ " UTC\n"
        ++ "ERROR: Those course ids are invalid: "
        ++ toString (c2Fixture.supported_courses.filter
            (fun cid => c2Fixture.warehouse_course_rows cid = [])) ++ "\n"
        ++ ("End cron: " ++ toString c2Fixture.run_end ++ "\n"))) :=
  claim_C2_invalid_ids_abort c2Fixture (by decide)

/- ### C3: the empty-course-set run crashes (code bug) -/

/-- Inputs for C3: no supported courses at all (so validation yields no
invalid and no valid ids), one new warehouse term, and a Unizin-flavoured
warehouse so metadata sync runs. -/
def c3Fixture : CronInputs :=
  { baseFixture with
    sett := { baseFixture.sett with is_unizin := true },
    term_df := [{ id := 55, canvas_id := 1055, name := "FA",
                  date_start := some 1, date_end := some 2 }],
    metadata_df := [[Cell.str "k", Cell.str "v"]] }

/-- C3 (code bug): the spec requires a run with an empty validated course
set to complete without error, skipping course-scoped stages but still
performing term and metadata sync and returning a summary.  The code
assigns `exception_in_run` only inside the non-empty branch (line 768) yet
reads it unconditionally at line 801, so the empty-set run performs term
and metadata sync and then raises `UnboundLocalError` instead of returning
the summary. -/
theorem claim_C3_empty_set_raises :
    cron_do c3Fixture =
      ([WriteOp.appendTerms c3Fixture.term_df,
        WriteOp.deleteAll "unizin_metadata" "",
        WriteOp.appendDf "unizin_metadata" c3Fixture.metadata_df],
       .error "UnboundLocalError") := by
  rfl

/- ### C1: the watermark commit -/

theorem benign_conclusion (tbl : List Course) (l : List WriteOp)
    (h : ∀ op ∈ l, benign tbl op) :
    ∀ c, WriteOp.courseSave c ∈ l →
      ∃ c0 ∈ tbl, c0.id = c.id ∧
        c.data_last_updated = c0.data_last_updated :=
  fun c hc => (h _ hc).2 c rfl

/-- C1: for every completed run of `do` with a non-empty locked course-id
set (validation passed), the trace's only write to `data_last_updated` is
the commit of line 803 — present, stamping the run's start time (captured
before validation) onto exactly the courses of `valid_locked_course_ids`,
exactly when the guarded resource block (`update_resource_access` /
`update_canvas_resource`) raised no exception; when it raised, no watermark
write occurs at all, and every `course.save()` in the trace carries the
`data_last_updated` value its course already had in the course table. -/
theorem claim_C1_watermark_commit (inp : CronInputs) (ops : List WriteOp)
    (st : String)
    (hrun : cron_do inp = (ops, .ok st))
    (hinv : (verify_course_ids inp.supported_courses
      inp.warehouse_course_rows).1 = [])
    (hval : (verify_course_ids inp.supported_courses
      inp.warehouse_course_rows).2.map (fun r => r.id) ≠ []) :
    (ops.filter isWatermarkOp =
      if (resource_stage inp ((verify_course_ids inp.supported_courses
          inp.warehouse_course_rows).2.map (fun r => r.id))).2.2 = true
      then []
      else [WriteOp.updateDataLastUpdated
        ((verify_course_ids inp.supported_courses
          inp.warehouse_course_rows).2.map (fun r => r.id)) inp.run_start]) ∧
    (∀ c, WriteOp.courseSave c ∈ ops →
      ∃ c0 ∈ inp.course_table, c0.id = c.id ∧
        c.data_last_updated = c0.data_last_updated) := by
  simp only [cron_do] at hrun
  rw [if_neg (not_not_intro hinv)] at hrun
  split at hrun
  · simp at hrun
  · rename_i termOps termSt heqTerm
    have hb_term : ∀ op ∈ termOps, benign inp.course_table op := by
      intro o ho
      have hx : termOps = (update_term inp.term_df inp.academic_term_ids
          inp.terms_to_sql).1 := by rw [heqTerm]
      exact benign_update_term _ _ _ _ o (hx ▸ ho)
    rw [if_neg (fun hl => hval (List.length_eq_zero.mp hl))] at hrun
    split at hrun
    · simp at hrun
    · rename_i midOps midSt excQ heqMid
      rcases hcs : course_stages inp
          (verify_course_ids inp.supported_courses inp.warehouse_course_rows).2
          ((verify_course_ids inp.supported_courses
            inp.warehouse_course_rows).2.map (fun r => r.id))
          (inp.academic_term_ids ++
            (new_term_rows inp.term_df inp.academic_term_ids).map
              (fun r => r.id)) with ⟨csOps, csRes⟩
      rw [hcs] at heqMid
      cases csRes with
      | error e => simp at heqMid
      | ok v =>
        obtain ⟨stx, exc⟩ := v
        simp only [Prod.mk.injEq, Except.ok.injEq] at heqMid
        obtain ⟨hmo, hms, hexcq⟩ := heqMid
        have hb_mid : ∀ op ∈ midOps, benign inp.course_table op := by
          intro o ho
          have hx : midOps = (course_stages inp
              (verify_course_ids inp.supported_courses
                inp.warehouse_course_rows).2
              ((verify_course_ids inp.supported_courses
                inp.warehouse_course_rows).2.map (fun r => r.id))
              (inp.academic_term_ids ++
                (new_term_rows inp.term_df inp.academic_term_ids).map
                  (fun r => r.id))).1 := by
            rw [hcs, ← hmo]
          exact benign_course_stages inp _ _ _ o (hx ▸ ho)
        have hflag : exc = (resource_stage inp
            ((verify_course_ids inp.supported_courses
              inp.warehouse_course_rows).2.map (fun r => r.id))).2.2 := by
          apply course_stages_flag inp _ _ _ csOps stx exc
          rw [hcs, hmo]
        rw [← hexcq] at hrun
        split at hrun
        · -- metadata stage raised: the run did not complete
          simp at hrun
        · rename_i mOps mSt heqMeta
          have hb_meta : ∀ op ∈ mOps, benign inp.course_table op := by
            intro o ho
            by_cases hu : inp.sett.is_unizin = true
            · rw [if_pos hu] at heqMeta
              have hx : mOps = (update_unizin_metadata inp).1 := by
                rw [heqMeta]
              exact benign_update_unizin_metadata inp.course_table inp o
                (hx ▸ ho)
            · rw [if_neg hu] at heqMeta
              have hx : mOps = [] := by
                have hy := congrArg Prod.fst heqMeta
                simpa using hy.symm
              rw [hx] at ho
              simp at ho
          split at hrun
          · -- unreachable: the flag option is `some exc` here
            simp at hrun
          · rename_i exc2 hsome
            have hflag2 : exc2 = (resource_stage inp
                ((verify_course_ids inp.supported_courses
                  inp.warehouse_course_rows).2.map (fun r => r.id))).2.2 := by
              rw [← Option.some.inj hsome]
              exact hflag
            split at hrun
            · rename_i hexc
              rw [Prod.mk.injEq] at hrun
              obtain ⟨hops, _⟩ := hrun
              rw [← hops, ← hflag2, hexc]
              constructor
              · simp only [Bool.false_eq_true, if_false]
                rw [List.filter_append, List.filter_append,
                  List.filter_append]
                rw [benign_filter_nil _ _ hb_term,
                  benign_filter_nil _ _ hb_mid,
                  benign_filter_nil _ _ hb_meta]
                simp [isWatermarkOp]
              · intro c hc
                rcases List.mem_append.mp hc with h1 | h1
                · exact benign_conclusion _ _
                    (benign_append _ _ _
                      (benign_append _ _ _ hb_term hb_mid) hb_meta) c h1
                · simp only [List.mem_singleton] at h1
                  exact WriteOp.noConfusion h1
            · rename_i hexc
              have hexc' : exc2 = true := by
                cases exc2
                · exact absurd rfl hexc
                · rfl
              rw [Prod.mk.injEq] at hrun
              obtain ⟨hops, _⟩ := hrun
              rw [← hops, ← hflag2, hexc']
              constructor
              · simp only [if_true]
                rw [List.filter_append, List.filter_append]
                rw [benign_filter_nil _ _ hb_term,
                  benign_filter_nil _ _ hb_mid,
                  benign_filter_nil _ _ hb_meta]
                rfl
              · exact benign_conclusion _ _
                  (benign_append _ _ _
                    (benign_append _ _ _ hb_term hb_mid) hb_meta)

/-- Inputs for the C1 witness: one valid course (5), already in sync with
the warehouse, resource views disabled so the resource block is skipped. -/
def c1Fixture : CronInputs :=
  { baseFixture with
    sett := { baseFixture.sett with
      views_disabled := ["show_resources_accessed"] },
    supported_courses := [5],
    warehouse_course_rows := fun cid =>
      if cid = 5 then
        [{ id := 5, canvas_id := 105, enrollment_term_id := 55,
           name := "c5", start_at := none, conclude_at := none }]
      else [],
    course_table := [{ id := 5, name := "c5", term := some 55,
                       date_start := some 1, date_end := some 2,
                       data_last_updated := some 50 }] }

/-- Witness for C1: in a completed run over course 5 with no resource-stage
exception, the only watermark write stamps the run start time onto exactly
the locked course ids. -/
theorem claim_C1_witness :
    (cron_do c1Fixture).1.filter isWatermarkOp =
      (if (resource_stage c1Fixture
            ((verify_course_ids c1Fixture.supported_courses
              c1Fixture.warehouse_course_rows).2.map (fun r => r.id))).2.2
          = true
       then []
       else [WriteOp.updateDataLastUpdated
         ((verify_course_ids c1Fixture.supported_courses
           c1Fixture.warehouse_course_rows).2.map (fun r => r.id))
         c1Fixture.run_start]) :=
  (claim_C1_watermark_commit c1Fixture (cron_do c1Fixture).1
    ("Start cron: 100 UTC\n1 course(s): 5\n\n0 rows deleted from user\n"
      ++ "0 user : 5\n\n0 rows deleted from assignment_groups\n"
      ++ "0 assignment_groups : 5\n\n0 rows deleted from assignment\n"
      ++ "0 assignment : 5\n\n0 rows deleted from submission\n"
      ++ "0 submission : 5\n\n"
      ++ "0 rows deleted from assignment_weight_consideration\n"
      ++ "0 assignment_weight_consideration : 5\nEnd cron: 200\n")
    rfl rfl (by decide)).1

end CronUdp
